import Mathlib

/-!
Shallow embedding of the SIWE wallet-authentication core of the Fintech-agent
repository (`src/core/wallet_auth.py`, `src/core/wallet_service.py`,
`src/core/wallet_api.py`), together with theorems settling the frozen claims
about its specification.

Modelling conventions:
* machine randomness (`secrets.token_urlsafe`), the wall clock
  (`datetime.now()`), the keccak hash used by `Web3.to_checksum_address` and
  the ECDSA recovery of `Account.recover_message` are injected as explicit
  parameters;
* SQLAlchemy rows live in a `DBState` record of lists, queries are `find?`
  over those lists, commits are explicit state passing (an error raised
  before `session.commit()` leaves the database unchanged, since the request
  handlers in `wallet_api.py` close the session on the error path);
* Python `raise ValueError(...)` becomes `Except.error` of a typed error,
  one constructor per distinct `ValueError` message in the source.
-/

namespace Fintech

/-! ## Character-level hex helpers

`Web3.to_checksum_address` first lower-cases its (validated, hex-only) input
and then selectively upper-cases hex letters.  Since validation guarantees
that only hex digits appear, Python's `str.lower`/`str.upper` are modelled by
case maps restricted to the hex alphabet. -/

def hexToLower (c : Char) : Char :=
  match c with
  | 'A' => 'a'
  | 'B' => 'b'
  | 'C' => 'c'
  | 'D' => 'd'
  | 'E' => 'e'
  | 'F' => 'f'
  | c => c

def hexUpper (c : Char) : Char :=
  match c with
  | 'a' => 'A'
  | 'b' => 'B'
  | 'c' => 'C'
  | 'd' => 'D'
  | 'e' => 'E'
  | 'f' => 'F'
  | c => c

def isLowerHexChar (c : Char) : Bool :=
  c == '0' || c == '1' || c == '2' || c == '3' || c == '4' || c == '5' ||
  c == '6' || c == '7' || c == '8' || c == '9' || c == 'a' || c == 'b' ||
  c == 'c' || c == 'd' || c == 'e' || c == 'f'

def isUpperHexChar (c : Char) : Bool :=
  c == 'A' || c == 'B' || c == 'C' || c == 'D' || c == 'E' || c == 'F'

def isHexDigitChar (c : Char) : Bool :=
  isLowerHexChar c || isUpperHexChar c

/-- Python `str.lower()` on a full address string (hex body plus the `0x`
prefix, which the hex-restricted case map leaves unchanged). -/
def strLower (s : String) : List Char :=
  s.toList.map hexToLower

/-! ## Address normalisation (`checksum_address`, wallet_auth.py:250-263)

The EIP-55 transform applied by `Web3.to_checksum_address`, with the
keccak-256 hash abstracted as a function from the lower-cased hex body to the
list of nibbles of its digest. -/

def isHexAddress (addr : String) : Bool :=
  addr.toList.take 2 == ['0', 'x'] &&
  (addr.toList.drop 2).length == 40 &&
  (addr.toList.drop 2).all isHexDigitChar

/-- Case map over the lower-cased hex body: position i is upper-cased iff the
i-th nibble of the digest is at least 8. -/
def checksumMap (digest : List Nat) : Nat → List Char → List Char
  | _, [] => []
  | i, c :: rest =>
    (if 8 ≤ digest.getD i 0 then hexUpper c else c) :: checksumMap digest (i + 1) rest

/-- The lower-cased hex body of an address. -/
def lowerBody (addr : String) : List Char :=
  (addr.toList.drop 2).map hexToLower

/-- The checksummed rendering produced for a valid address. -/
def checksummedOf (keccak : List Char → List Nat) (addr : String) : String :=
  String.mk ('0' :: 'x' :: checksumMap (keccak (lowerBody addr)) 0 (lowerBody addr))

/-- `Web3.to_checksum_address`: validate, lower-case, then apply the EIP-55
case map driven by the keccak digest of the lower-cased body. -/
def to_checksum_address (keccak : List Char → List Nat) (addr : String) :
    Except String String :=
  if isHexAddress addr then Except.ok (checksummedOf keccak addr)
  else Except.error addr

/-- `checksum_address` (wallet_auth.py:250-263): wraps the conversion,
re-raising any failure as `ValueError("Invalid Ethereum address: ...")`. -/
def checksum_address (keccak : List Char → List Nat) (address : String) :
    Except String String :=
  match to_checksum_address keccak address with
  | Except.ok ca => Except.ok ca
  | Except.error _ => Except.error ("Invalid Ethereum address: " ++ address)

/-! ## Configuration (`WalletAuthConfig`, wallet_auth.py:16-23) -/

def JWT_EXPIRY_HOURS : Nat := 24

def NONCE_EXPIRY_MINUTES : Nat := 5

/-- Environment-dependent configuration fields.  `jwt_secret` is
`os.getenv("JWT_SECRET", secrets.token_urlsafe(32))`, modelled by
`jwtSecretOf` below; `siwe_domain` and `siwe_uri` default to
"finsight.app" / "https://finsight.app". -/
structure WalletAuthConfig where
  jwt_secret : String
  siwe_domain : String
  siwe_uri : String
deriving DecidableEq, Repr

/-- `JWT_SECRET = os.getenv("JWT_SECRET", secrets.token_urlsafe(32))`:
the environment value when set, otherwise the fresh random default drawn
once at module load (the randomness is the `freshRandom` parameter). -/
def jwtSecretOf (envSecret : Option String) (freshRandom : String) : String :=
  envSecret.getD freshRandom

/-! ## SIWE challenge message (wallet_auth.py:106-128) -/

/-- `WalletAuthService._create_siwe_message` (wallet_auth.py:106-128). -/
def create_siwe_message (cfg : WalletAuthConfig)
    (address nonce issued_at : String) : String :=
  cfg.siwe_domain ++ " wants you to sign in with your Ethereum account:\n" ++
  address ++
  "\n\nConnect your wallet to FinSIght Platform for secure, self-custody portfolio tracking.\n\nURI: " ++
  cfg.siwe_uri ++
  "\nVersion: 1\nChain ID: 1\nNonce: " ++ nonce ++
  "\nIssued At: " ++ issued_at

/-- The challenge-message wire format as the spec's §6 lays it out: ten
newline-separated lines — domain greeting, canonical address, blank line,
the fixed instruction line, blank line, URI, protocol version "1", the
literal line "Chain ID: 1", the nonce and the ISO-8601 issued-at stamp. -/
def specSiweLines (domain uri address nonce issued_at : String) :
    List String :=
  [domain ++ " wants you to sign in with your Ethereum account:",
   address,
   "",
   "Connect your wallet to FinSIght Platform for secure, self-custody portfolio tracking.",
   "",
   "URI: " ++ uri,
   "Version: 1",
   "Chain ID: 1",
   "Nonce: " ++ nonce,
   "Issued At: " ++ issued_at]

/-! ## Nonce generation (wallet_auth.py:72-104) -/

/-- `WalletNonce` pydantic model (wallet_auth.py:26-31). -/
structure WalletNonce where
  wallet_address : String
  nonce : String
  expires_at : Nat
  message : String
deriving DecidableEq, Repr

/-- `WalletAuthService.generate_nonce` (wallet_auth.py:72-104).  The random
token from `secrets.token_urlsafe(32)` is the `freshNonce` parameter; the
clock readings are `now` (seconds) and its ISO rendering `issued_at`. -/
def generate_nonce (keccak : List Char → List Nat) (cfg : WalletAuthConfig)
    (now : Nat) (issued_at freshNonce : String) (wallet_address : String) :
    Except String WalletNonce :=
  match checksum_address keccak wallet_address with
  | Except.error e => Except.error e
  | Except.ok checksummed_address =>
    Except.ok
      { wallet_address := checksummed_address
        nonce := freshNonce
        expires_at := now + NONCE_EXPIRY_MINUTES * 60
        message := create_siwe_message cfg checksummed_address freshNonce issued_at }

/-! ## Signature verification (wallet_auth.py:130-167) -/

/-- `WalletAuthService.verify_signature` (wallet_auth.py:130-167).  The
`recover` parameter abstracts `Account.recover_message ∘ encode_defunct`:
`recover message signature` is the address the library recovers, or `none`
when the library raises on an undecodable signature.  The whole body sits in
a `try/except Exception` that turns every failure into `False`. -/
def verify_signature (keccak : List Char → List Nat)
    (recover : String → String → Option String)
    (wallet_address signature nonce message : String) : Bool :=
  match checksum_address keccak wallet_address with
  | Except.error _ => false
  | Except.ok checksummed_address =>
    match recover message signature with
    | none => false
    | some recovered_address =>
      strLower recovered_address == strLower checksummed_address

/-! ## JWT credentials (wallet_auth.py:169-247)

Symbolic model of PyJWT with HS256: a token is either undecodable junk or a
claim set signed under some secret; verification succeeds exactly when the
verifying secret equals the signing secret, the `exp` claim has not passed,
and (in `verify_wallet_jwt`) the `type` discriminator is "wallet". -/

structure JwtPayload where
  tenant_id : String
  user_id : String
  wallet_id : String
  wallet_address : String
  chain_id : Int
  exp : Nat
  iat : Nat
  type : String
deriving DecidableEq, Repr

inductive JwtToken where
  | malformed (raw : String)
  | signed (payload : JwtPayload) (secret : String)
deriving DecidableEq, Repr

/-- `jwt.encode(payload, secret, algorithm="HS256")`. -/
def jwtEncode (payload : JwtPayload) (secret : String) : JwtToken :=
  JwtToken.signed payload secret

/-- `jwt.decode(token, secret, algorithms=["HS256"])` at clock time `now`:
`none` models `InvalidTokenError` (malformed token or signature made under a
different secret) and `ExpiredSignatureError` (`exp` no later than now). -/
def jwtDecode (token : JwtToken) (secret : String) (now : Nat) :
    Option JwtPayload :=
  match token with
  | JwtToken.malformed _ => none
  | JwtToken.signed payload sigSecret =>
    if sigSecret == secret then
      if payload.exp ≤ now then none
      else some payload
    else none

/-- `WalletJWT` pydantic model (wallet_auth.py:58-66). -/
structure WalletJWT where
  access_token : JwtToken
  token_type : String
  expires_in : Nat
  wallet_address : String
  tenant_id : String
  user_id : String
  wallet_id : String
deriving DecidableEq, Repr

/-- `WalletAuthService.generate_wallet_jwt` (wallet_auth.py:169-216). -/
def generate_wallet_jwt (secret : String) (now : Nat)
    (tenant_id user_id wallet_id wallet_address : String) (chain_id : Int) :
    WalletJWT :=
  let expires_at := now + JWT_EXPIRY_HOURS * 3600
  let payload : JwtPayload :=
    { tenant_id := tenant_id
      user_id := user_id
      wallet_id := wallet_id
      wallet_address := wallet_address
      chain_id := chain_id
      exp := expires_at
      iat := now
      type := "wallet" }
  { access_token := jwtEncode payload secret
    token_type := "bearer"
    expires_in := JWT_EXPIRY_HOURS * 3600
    wallet_address := wallet_address
    tenant_id := tenant_id
    user_id := user_id
    wallet_id := wallet_id }

/-- `WalletAuthService.verify_wallet_jwt` (wallet_auth.py:218-247): decode,
then reject any payload whose `type` discriminator is not "wallet"; every
failure returns `none`, never an exception. -/
def verify_wallet_jwt (secret : String) (now : Nat) (token : JwtToken) :
    Option JwtPayload :=
  match jwtDecode token secret now with
  | none => none
  | some payload =>
    if payload.type != "wallet" then none
    else some payload

/-! ## Database rows and state

`WalletNonceDB` and `WalletConnectionDB` are imported by
`wallet_service.py` from `core.database`, but the shipped `database.py`
does not contain their declarations (only `UserDB` and unrelated tables),
so the two row schemas are modelled from the spec. -/

/-- `UserDB` row (database.py:13-31), restricted to the two columns the
wallet flow reads; the `tenant_id` column is added by
`migrate_add_tenant_id.py`. -/
structure UserRow where
  id : String
  tenant_id : String
deriving DecidableEq, Repr

/-- Modelled from the spec: the `WalletNonceDB` row — `WalletNonce` data
model of spec §3, "{address (canonical), nonce, message (exact string that
was/will be signed), expires_at, used (boolean)}", keyed by address.  Its
declaration is missing from `src/core/database.py`; the fields match the
constructor call in `wallet_service.py:54-60`. -/
structure WalletNonceRow where
  wallet_address : String
  nonce : String
  message : String
  expires_at : Nat
  used : Bool
deriving DecidableEq, Repr

/-- Modelled from the spec: the `WalletConnectionDB` row — `WalletConnection`
data model of spec §3.  Its declaration is missing from
`src/core/database.py`; the fields match the constructor call in
`wallet_service.py:193-205` (the JSON `wallet_metadata` column, always `{}`
in this flow, is modelled as an association list). -/
structure WalletConnectionRow where
  id : String
  tenant_id : String
  user_id : String
  wallet_address : String
  chain_id : Int
  wallet_type : String
  label : String
  is_primary : Bool
  verified_at : Nat
  last_used_at : Nat
  created_at : Nat
  wallet_metadata : List (String × String)
deriving DecidableEq, Repr

/-- The mutable database state the wallet service reads and writes. -/
structure DBState where
  users : List UserRow
  nonces : List WalletNonceRow
  wallets : List WalletConnectionRow
deriving DecidableEq, Repr

/-- The persisted row for a freshly generated nonce
(`wallet_service.py:54-60`, `used=False`). -/
def rowOfNonce (nd : WalletNonce) : WalletNonceRow :=
  { wallet_address := nd.wallet_address
    nonce := nd.nonce
    message := nd.message
    expires_at := nd.expires_at
    used := false }

/-- `session.delete(existing_nonce)`: removes the first row stored for the
address (the one `first()` returned). -/
def removeNonceFor (a : String) : List WalletNonceRow → List WalletNonceRow
  | [] => []
  | n :: rest => if n.wallet_address == a then rest else n :: removeNonceFor a rest

/-! ## Nonce store (`WalletService.create_or_get_nonce`, wallet_service.py:20-72) -/

/-- `WalletService.create_or_get_nonce` (wallet_service.py:20-72): return the
outstanding nonce for the address if it is unused and unexpired; otherwise
delete the stale row and generate, persist and return a fresh one. -/
def create_or_get_nonce (keccak : List Char → List Nat)
    (cfg : WalletAuthConfig) (now : Nat) (issued_at freshNonce : String)
    (s : DBState) (wallet_address : String) :
    Except String (WalletNonce × DBState) :=
  match checksum_address keccak wallet_address with
  | Except.error e => Except.error e
  | Except.ok checksummed =>
    match s.nonces.find? (fun n => n.wallet_address == checksummed) with
    | some existing_nonce =>
      if existing_nonce.used = true ∨ existing_nonce.expires_at < now then
        -- stale: delete it, then fall through to generation
        let s1 : DBState := { s with nonces := removeNonceFor checksummed s.nonces }
        match generate_nonce keccak cfg now issued_at freshNonce checksummed with
        | Except.error e => Except.error e
        | Except.ok nonce_data =>
          Except.ok (nonce_data, { s1 with nonces := s1.nonces ++ [rowOfNonce nonce_data] })
      else
        -- return existing nonce with the stored message
        Except.ok
          ({ wallet_address := existing_nonce.wallet_address
             nonce := existing_nonce.nonce
             expires_at := existing_nonce.expires_at
             message := existing_nonce.message }, s)
    | none =>
      match generate_nonce keccak cfg now issued_at freshNonce checksummed with
      | Except.error e => Except.error e
      | Except.ok nonce_data =>
        Except.ok (nonce_data, { s with nonces := s.nonces ++ [rowOfNonce nonce_data] })

/-! ## Verify-and-connect (`WalletService.verify_and_connect_wallet`,
wallet_service.py:74-223) -/

/-- The distinct `ValueError`s raised across the connect flow. -/
inductive WalletError where
  | invalidAddress (address : String)
  | userNotFound (user_id tenant_id : String)
  | nonceNotFound
  | nonceAlreadyUsed
  | nonceExpired
  | invalidSignature
deriving DecidableEq, Repr

/-- Python truthiness of the optional label: `label or default` / `if label:`
treat both `None` and the empty string as absent. -/
def labelOr (label : Option String) (dflt : String) : String :=
  match label with
  | some l => if l == "" then dflt else l
  | none => dflt

/-- `db_nonce.used = True` on the row `first()` returned
(wallet_service.py:144-146). -/
def setNonceUsed (a nn : String) : List WalletNonceRow → List WalletNonceRow
  | [] => []
  | n :: rest =>
    if n.wallet_address == a && n.nonce == nn then { n with used := true } :: rest
    else n :: setNonceUsed a nn rest

/-- The (tenant, user, address, chain) uniqueness key of a connection. -/
def connKey (tenant_id user_id wallet_address : String) (chain_id : Int)
    (w : WalletConnectionRow) : Bool :=
  w.tenant_id == tenant_id && w.user_id == user_id &&
  w.wallet_address == wallet_address && w.chain_id == chain_id

/-- The field updates applied to an existing connection row on
re-verification (wallet_service.py:158-165): refresh the timestamps and the
wallet type, replace the label when a truthy one was supplied. -/
def reverifyRow (now : Nat) (wallet_type : String) (label : Option String)
    (w : WalletConnectionRow) : WalletConnectionRow :=
  { w with verified_at := now, last_used_at := now,
           wallet_type := wallet_type, label := labelOr label w.label }

/-- In-place update of the existing connection row on re-verification
(wallet_service.py:158-165). -/
def updateExistingWallet (now : Nat) (wallet_type : String)
    (label : Option String) (tenant_id user_id wallet_address : String)
    (chain_id : Int) : List WalletConnectionRow → List WalletConnectionRow
  | [] => []
  | w :: rest =>
    if connKey tenant_id user_id wallet_address chain_id w then
      reverifyRow now wallet_type label w :: rest
    else w :: updateExistingWallet now wallet_type label tenant_id user_id
           wallet_address chain_id rest

/-- The row inserted for a first-time connection (wallet_service.py:182-205):
`is_primary` is set iff the user had no wallet in the tenant scope
(`user_wallets == 0`), the id comes from the millisecond timestamp, and the
default label title-cases the wallet type. -/
def newConnectionRow (s : DBState) (now : Nat)
    (tenant_id user_id checksummed : String) (chain_id : Int)
    (wallet_type : String) (label : Option String) : WalletConnectionRow :=
  { id := "wallet_" ++ toString (now * 1000)
    tenant_id := tenant_id
    user_id := user_id
    wallet_address := checksummed
    chain_id := chain_id
    wallet_type := wallet_type
    label := labelOr label (wallet_type.capitalize ++ " Wallet")
    is_primary := (s.wallets.countP
      (fun w => w.tenant_id == tenant_id && w.user_id == user_id)) == 0
    verified_at := now
    last_used_at := now
    created_at := now
    wallet_metadata := [] }

/-- The connection upsert performed after a successful verification
(wallet_service.py:148-223): update the row matching
(tenant, user, address, chain) if one exists, otherwise insert a new row
which is primary iff the user had no wallet in the tenant scope. -/
def upsertConnection (s : DBState) (now : Nat)
    (tenant_id user_id checksummed : String) (chain_id : Int)
    (wallet_type : String) (label : Option String) :
    WalletConnectionRow × DBState :=
  match s.wallets.find? (connKey tenant_id user_id checksummed chain_id) with
  | some existing =>
    (reverifyRow now wallet_type label existing,
     { s with wallets := (updateExistingWallet now wallet_type label
         tenant_id user_id checksummed chain_id s.wallets) })
  | none =>
    (newConnectionRow s now tenant_id user_id checksummed chain_id
       wallet_type label,
     { s with wallets := s.wallets ++ [newConnectionRow s now tenant_id
         user_id checksummed chain_id wallet_type label] })

/-- `WalletService.verify_and_connect_wallet` (wallet_service.py:74-223).
Order of operations is the source's: checksum the address; tenant-scoped
user lookup; nonce lookup and liveness checks; signature verification
against the *stored* message; only then mark the nonce used and upsert the
connection (first wallet in the (tenant, user) scope becomes primary). -/
def verify_and_connect_wallet (keccak : List Char → List Nat)
    (recover : String → String → Option String) (s : DBState) (now : Nat)
    (tenant_id user_id wallet_address signature nonce : String)
    (chain_id : Int) (wallet_type : String) (label : Option String) :
    Except WalletError (WalletConnectionRow × DBState) :=
  match checksum_address keccak wallet_address with
  | Except.error _ => Except.error (WalletError.invalidAddress wallet_address)
  | Except.ok checksummed =>
  match s.users.find? (fun u => u.id == user_id && u.tenant_id == tenant_id) with
  | none => Except.error (WalletError.userNotFound user_id tenant_id)
  | some _user =>
  match s.nonces.find? (fun n => n.wallet_address == checksummed && n.nonce == nonce) with
  | none => Except.error WalletError.nonceNotFound
  | some db_nonce =>
  if db_nonce.used = true then Except.error WalletError.nonceAlreadyUsed
  else if db_nonce.expires_at < now then Except.error WalletError.nonceExpired
  else
    -- use stored message (exact same message that was signed)
    let message := db_nonce.message
    if verify_signature keccak recover checksummed signature nonce message = false then
      Except.error WalletError.invalidSignature
    else
      -- mark nonce as used (only reached after verification succeeded)
      let s1 : DBState := { s with nonces := setNonceUsed checksummed nonce s.nonces }
      Except.ok (upsertConnection s1 now tenant_id user_id checksummed
        chain_id wallet_type label)

/-- The request-level view of a connect attempt: on an error the session is
closed without further commits, so the durable state is the initial one. -/
def runVerifyAndConnect (keccak : List Char → List Nat)
    (recover : String → String → Option String) (s : DBState) (now : Nat)
    (tenant_id user_id wallet_address signature nonce : String)
    (chain_id : Int) (wallet_type : String) (label : Option String) :
    Except WalletError WalletConnectionRow × DBState :=
  match verify_and_connect_wallet keccak recover s now tenant_id user_id
      wallet_address signature nonce chain_id wallet_type label with
  | Except.ok (conn, s1) => (Except.ok conn, s1)
  | Except.error e => (Except.error e, s)

/-- The `POST /api/wallet/verify` handler (wallet_api.py:107-168): runs
`verify_and_connect_wallet` and, only on success, issues the wallet-scoped
JWT for the resulting connection. -/
def verify_endpoint (keccak : List Char → List Nat)
    (recover : String → String → Option String) (secret : String)
    (s : DBState) (now : Nat)
    (tenant_id user_id wallet_address signature nonce : String)
    (chain_id : Int) (wallet_type : String) (label : Option String) :
    Except WalletError (WalletConnectionRow × WalletJWT) × DBState :=
  match verify_and_connect_wallet keccak recover s now tenant_id user_id
      wallet_address signature nonce chain_id wallet_type label with
  | Except.ok (conn, s1) =>
    (Except.ok (conn, generate_wallet_jwt secret now conn.tenant_id
        conn.user_id conn.id conn.wallet_address conn.chain_id), s1)
  | Except.error e => (Except.error e, s)

/-! ## Primary selection and disconnection (wallet_service.py:265-334) -/

/-- The per-row effect of the clear-then-set transaction: within the
(tenant, user) scope a row is primary afterwards iff it is the target. -/
def setPrimaryMap (tenant_id user_id wallet_id : String)
    (w : WalletConnectionRow) : WalletConnectionRow :=
  if w.tenant_id == tenant_id && w.user_id == user_id then
    { w with is_primary := w.id == wallet_id }
  else w

/-- `WalletService.set_primary_wallet` (wallet_service.py:265-302): clear
`is_primary` on every connection in the (tenant, user) scope, then set it on
the target; both under one commit.  When the target does not belong to the
scope the function returns `False` before committing, and the session is
closed, rolling the bulk clear back — so the durable state is unchanged. -/
def set_primary_wallet (s : DBState) (tenant_id user_id wallet_id : String) :
    Bool × DBState :=
  match s.wallets.find? (fun w => w.id == wallet_id &&
      w.tenant_id == tenant_id && w.user_id == user_id) with
  | none => (false, s)
  | some _ =>
    (true, { s with wallets := (s.wallets.map
        (setPrimaryMap tenant_id user_id wallet_id)) })

/-- `session.delete(wallet)` on the row `first()` returned. -/
def removeWallet (wallet_id tenant_id user_id : String) :
    List WalletConnectionRow → List WalletConnectionRow
  | [] => []
  | w :: rest =>
    if w.id == wallet_id && w.tenant_id == tenant_id && w.user_id == user_id then rest
    else w :: removeWallet wallet_id tenant_id user_id rest

/-- `WalletService.disconnect_wallet` (wallet_service.py:304-334): delete the
connection if it belongs to the (tenant, user) scope; no primary is
re-assigned. -/
def disconnect_wallet (s : DBState) (tenant_id user_id wallet_id : String) :
    Bool × DBState :=
  match s.wallets.find? (fun w => w.id == wallet_id &&
      w.tenant_id == tenant_id && w.user_id == user_id) with
  | none => (false, s)
  | some _ =>
    (true, { s with wallets := removeWallet wallet_id tenant_id user_id s.wallets })

/-- Number of primary connections in a (tenant, user) scope. -/
def primaryCount (s : DBState) (tenant_id user_id : String) : Nat :=
  s.wallets.countP (fun w => w.tenant_id == tenant_id &&
    w.user_id == user_id && w.is_primary)

/-- Number of connections in a (tenant, user) scope. -/
def scopeCount (s : DBState) (tenant_id user_id : String) : Nat :=
  s.wallets.countP (fun w => w.tenant_id == tenant_id && w.user_id == user_id)

/-- Every (tenant, user) scope holds at most one primary connection. -/
def AtMostOnePrimary (s : DBState) : Prop :=
  ∀ tenant_id user_id, primaryCount s tenant_id user_id ≤ 1

/-- Success of an `Except` computation, as a Boolean. -/
def exceptOk {ε α : Type} : Except ε α → Bool
  | Except.ok _ => true
  | Except.error _ => false

/-- The error carried by a failed `Except` computation, if any. -/
def errOf {ε α : Type} : Except ε α → Option ε
  | Except.ok _ => none
  | Except.error e => some e

/-! ## Concrete fixtures

Closed instances of the injected oracles and database states, used to
evaluate the theorems on concrete inputs. -/

/-- A trivial digest oracle: every nibble is 0, so checksumming keeps every
letter lower-case. -/
def keccak0 : List Char → List Nat := fun _ => []

def addrA : String := "0xaaaaaaaaaaaaaaaaaaaaaaaaaaaaaaaaaaaaaaaa"

def addrAUpper : String := "0xAAAAAAAAAAAAAAAAAAAAAAAAAAAAAAAAAAAAAAAA"

def addrB : String := "0xbbbbbbbbbbbbbbbbbbbbbbbbbbbbbbbbbbbbbbbb"

def addrC : String := "0xcccccccccccccccccccccccccccccccccccccccc"

/-- Concrete recovery oracle: three known (message, signature) pairs recover
their wallets; everything else is undecodable. -/
def recover0 : String → String → Option String := fun m sig =>
  if m == "mA" && sig == "sigA" then some addrA
  else if m == "mB" && sig == "sigB" then some addrB
  else if m == "mC" && sig == "sigC" then some addrC
  else none

def cfg0 : WalletAuthConfig :=
  { jwt_secret := "secret0", siwe_domain := "finsight.app",
    siwe_uri := "https://finsight.app" }

def user0 : UserRow := { id := "u1", tenant_id := "t1" }

def nonceRowA : WalletNonceRow :=
  { wallet_address := addrA, nonce := "nA", message := "mA",
    expires_at := 100, used := false }

def nonceRowB : WalletNonceRow :=
  { wallet_address := addrB, nonce := "nB", message := "mB",
    expires_at := 100, used := false }

def nonceRowC : WalletNonceRow :=
  { wallet_address := addrC, nonce := "nC", message := "mC",
    expires_at := 100, used := false }

def state0 : DBState :=
  { users := [user0], nonces := [nonceRowA, nonceRowB, nonceRowC], wallets := [] }

/-- The connection row created for wallet A at time 1. -/
def connRowA : WalletConnectionRow :=
  { id := "wallet_1000", tenant_id := "t1", user_id := "u1",
    wallet_address := addrA, chain_id := 1, wallet_type := "metamask",
    label := "Metamask Wallet", is_primary := true, verified_at := 1,
    last_used_at := 1, created_at := 1, wallet_metadata := [] }

/-- The database state after wallet A connects at time 1. -/
def state1 : DBState :=
  { users := [user0],
    nonces := [{ nonceRowA with used := true }, nonceRowB, nonceRowC],
    wallets := [connRowA] }

/-- state0 after connecting wallet A at time 1. -/
def stateAfterA : DBState :=
  (runVerifyAndConnect keccak0 recover0 state0 1 "t1" "u1" addrA "sigA" "nA"
    1 "metamask" none).2

/-- ... then connecting wallet B at time 2. -/
def stateAfterB : DBState :=
  (runVerifyAndConnect keccak0 recover0 stateAfterA 2 "t1" "u1" addrB "sigB"
    "nB" 1 "metamask" none).2

/-- ... then disconnecting wallet A (the primary). -/
def stateAfterDel : DBState :=
  (disconnect_wallet stateAfterB "t1" "u1" "wallet_1000").2

/-- ... then connecting wallet C at time 4. -/
def stateAfterC : DBState :=
  (runVerifyAndConnect keccak0 recover0 stateAfterDel 4 "t1" "u1" addrC
    "sigC" "nC" 1 "metamask" none).2

/-! # Theorems -/

/-! ## Hex characters -/

theorem hexToLower_of_lower {c : Char} (h : isLowerHexChar c = true) :
    hexToLower c = c := by
  simp only [isLowerHexChar, Bool.or_eq_true, beq_iff_eq] at h
  casesm* _ ∨ _ <;> subst_vars <;> decide

theorem hexToLower_hexUpper {c : Char} (h : isLowerHexChar c = true) :
    hexToLower (hexUpper c) = c := by
  simp only [isLowerHexChar, Bool.or_eq_true, beq_iff_eq] at h
  casesm* _ ∨ _ <;> subst_vars <;> decide

theorem lower_hexToLower {c : Char} (h : isHexDigitChar c = true) :
    isLowerHexChar (hexToLower c) = true := by
  simp only [isHexDigitChar, isLowerHexChar, isUpperHexChar,
    Bool.or_eq_true, beq_iff_eq] at h
  casesm* _ ∨ _ <;> subst_vars <;> decide

theorem hexDigit_hexUpper {c : Char} (h : isLowerHexChar c = true) :
    isHexDigitChar (hexUpper c) = true := by
  simp only [isLowerHexChar, Bool.or_eq_true, beq_iff_eq] at h
  casesm* _ ∨ _ <;> subst_vars <;> decide

/-! ## Checksumming -/

theorem checksumMap_length (digest : List Nat) (i : Nat) (l : List Char) :
    (checksumMap digest i l).length = l.length := by
  induction l generalizing i with
  | nil => rfl
  | cons c rest ih => simp [checksumMap, ih]

theorem checksumMap_map_lower (digest : List Nat) (i : Nat) {l : List Char}
    (h : ∀ c ∈ l, isLowerHexChar c = true) :
    (checksumMap digest i l).map hexToLower = l := by
  induction l generalizing i with
  | nil => rfl
  | cons c rest ih =>
    have hc := h c (List.mem_cons_self c rest)
    have hrest : ∀ x ∈ rest, isLowerHexChar x = true :=
      fun x hx => h x (List.mem_cons_of_mem c hx)
    show hexToLower (if 8 ≤ digest.getD i 0 then hexUpper c else c) ::
      List.map hexToLower (checksumMap digest (i + 1) rest) = c :: rest
    by_cases hd : 8 ≤ digest.getD i 0
    · rw [if_pos hd, hexToLower_hexUpper hc, ih (i + 1) hrest]
    · rw [if_neg hd, hexToLower_of_lower hc, ih (i + 1) hrest]

theorem checksumMap_all_hex (digest : List Nat) (i : Nat) {l : List Char}
    (h : ∀ c ∈ l, isLowerHexChar c = true) :
    ∀ c ∈ checksumMap digest i l, isHexDigitChar c = true := by
  induction l generalizing i with
  | nil => intro c hc; cases hc
  | cons c rest ih =>
    have hc := h c (List.mem_cons_self c rest)
    have hrest : ∀ x ∈ rest, isLowerHexChar x = true :=
      fun x hx => h x (List.mem_cons_of_mem c hx)
    intro d hd
    have hd' : d = (if 8 ≤ digest.getD i 0 then hexUpper c else c) ∨
        d ∈ checksumMap digest (i + 1) rest := List.mem_cons.mp hd
    rcases hd' with hd' | hd'
    · subst hd'
      by_cases h8 : 8 ≤ digest.getD i 0
      · rw [if_pos h8]; exact hexDigit_hexUpper hc
      · rw [if_neg h8]
        simp [isHexDigitChar, hc]
    · exact ih (i + 1) hrest d hd'

/-- The lower-cased body of a valid address consists of lower-hex chars. -/
theorem lowerBody_all_lower {addr : String} (h : isHexAddress addr = true) :
    ∀ c ∈ lowerBody addr, isLowerHexChar c = true := by
  simp only [isHexAddress, Bool.and_eq_true, beq_iff_eq, List.all_eq_true] at h
  intro c hc
  rcases List.mem_map.mp hc with ⟨d, hd, rfl⟩
  exact lower_hexToLower (h.2 d hd)

theorem toList_checksummedOf (keccak : List Char → List Nat) (addr : String) :
    (checksummedOf keccak addr).toList =
      '0' :: 'x' :: checksumMap (keccak (lowerBody addr)) 0 (lowerBody addr) := rfl

theorem lowerBody_length {addr : String} (h : isHexAddress addr = true) :
    (lowerBody addr).length = 40 := by
  simp only [isHexAddress, Bool.and_eq_true, beq_iff_eq, List.all_eq_true] at h
  show ((addr.toList.drop 2).map hexToLower).length = 40
  rw [List.length_map]
  exact h.1.2

/-- The output of the checksum transform is itself a valid hex address. -/
theorem checksummedOf_valid (keccak : List Char → List Nat) {addr : String}
    (h : isHexAddress addr = true) :
    isHexAddress (checksummedOf keccak addr) = true := by
  have hlow := lowerBody_all_lower h
  have hlen : (checksumMap (keccak (lowerBody addr)) 0 (lowerBody addr)).length = 40 := by
    rw [checksumMap_length, lowerBody_length h]
  simp only [isHexAddress, toList_checksummedOf, List.take, List.drop,
    Bool.and_eq_true, beq_iff_eq, List.all_eq_true]
  exact ⟨⟨trivial, hlen⟩, checksumMap_all_hex _ 0 hlow⟩

/-- Lower-casing the checksum output recovers the lower-cased input body. -/
theorem lowerBody_checksummedOf (keccak : List Char → List Nat) {addr : String}
    (h : isHexAddress addr = true) :
    lowerBody (checksummedOf keccak addr) = lowerBody addr := by
  show ((checksummedOf keccak addr).toList.drop 2).map hexToLower = lowerBody addr
  rw [toList_checksummedOf]
  show (checksumMap (keccak (lowerBody addr)) 0 (lowerBody addr)).map hexToLower
    = lowerBody addr
  exact checksumMap_map_lower _ 0 (lowerBody_all_lower h)

theorem checksum_address_ok_of_valid (keccak : List Char → List Nat)
    {addr : String} (h : isHexAddress addr = true) :
    checksum_address keccak addr = Except.ok (checksummedOf keccak addr) := by
  simp [checksum_address, to_checksum_address, h]

theorem checksum_address_error_of_invalid (keccak : List Char → List Nat)
    {addr : String} (h : isHexAddress addr = false) :
    checksum_address keccak addr =
      Except.error ("Invalid Ethereum address: " ++ addr) := by
  simp [checksum_address, to_checksum_address, h]

theorem checksum_address_ok_iff (keccak : List Char → List Nat)
    {addr ca : String} :
    checksum_address keccak addr = Except.ok ca ↔
      isHexAddress addr = true ∧ ca = checksummedOf keccak addr := by
  constructor
  · intro h
    by_cases hv : isHexAddress addr = true
    · rw [checksum_address_ok_of_valid keccak hv] at h
      exact ⟨hv, (Except.ok.injEq _ _ ▸ h.symm :)⟩
    · rw [checksum_address_error_of_invalid keccak
        (Bool.not_eq_true _ ▸ hv)] at h
      cases h
  · rintro ⟨hv, rfl⟩
    exact checksum_address_ok_of_valid keccak hv

/-- The checksum output depends only on the lower-cased body. -/
theorem checksummedOf_congr (keccak : List Char → List Nat) {a b : String}
    (h : lowerBody a = lowerBody b) :
    checksummedOf keccak a = checksummedOf keccak b := by
  simp [checksummedOf, h]

/-- Idempotence: re-checksumming the checksummed output is a fixed point. -/
theorem checksum_address_idem (keccak : List Char → List Nat) {addr ca : String}
    (h : checksum_address keccak addr = Except.ok ca) :
    checksum_address keccak ca = Except.ok ca := by
  rcases (checksum_address_ok_iff keccak).mp h with ⟨hv, rfl⟩
  rw [checksum_address_ok_of_valid keccak (checksummedOf_valid keccak hv),
    checksummedOf_congr keccak (lowerBody_checksummedOf keccak hv)]

theorem lowerBody_eq_drop_strLower (a : String) :
    lowerBody a = (strLower a).drop 2 := by
  simp [lowerBody, strLower, List.map_drop]

/-- C9: `checksum_address` is idempotent on valid addresses
(re-checksumming its output returns the output unchanged), it is
case-insensitive on its input (two spellings of an address with the same
lower-casing normalize to the identical checksummed form), and malformed
input raises the invalid-address `ValueError`. -/
theorem C9_checksum_idem_case_insensitive_invalid
    (keccak : List Char → List Nat) (x ca a b m : String)
    (hx : checksum_address keccak x = Except.ok ca)
    (hva : isHexAddress a = true) (hvb : isHexAddress b = true)
    (hab : strLower a = strLower b)
    (hm : isHexAddress m = false) :
    checksum_address keccak ca = Except.ok ca ∧
    checksum_address keccak a = checksum_address keccak b ∧
    checksum_address keccak m =
      Except.error ("Invalid Ethereum address: " ++ m) := by
  refine ⟨checksum_address_idem keccak hx, ?_,
    checksum_address_error_of_invalid keccak hm⟩
  have hbody : lowerBody a = lowerBody b := by
    rw [lowerBody_eq_drop_strLower, lowerBody_eq_drop_strLower, hab]
  rw [checksum_address_ok_of_valid keccak hva,
    checksum_address_ok_of_valid keccak hvb,
    checksummedOf_congr keccak hbody]

theorem C9_witness :
    checksum_address keccak0 addrA = Except.ok addrA ∧
    checksum_address keccak0 addrAUpper = checksum_address keccak0 addrA ∧
    checksum_address keccak0 "nothex" =
      Except.error ("Invalid Ethereum address: " ++ "nothex") := by
  have hx : checksum_address keccak0 addrA = Except.ok addrA := by
    rw [checksum_address_ok_of_valid keccak0
      (by decide : isHexAddress addrA = true)]
    rw [show checksummedOf keccak0 addrA = addrA from by decide]
  exact C9_checksum_idem_case_insensitive_invalid keccak0 addrA addrA
    addrAUpper addrA "nothex" hx (by decide) (by decide) (by decide) (by decide)

/-! ## JWT credentials -/

/-- C5: the credential round-trip.  Verifying a freshly issued wallet JWT
before its expiry returns exactly the five claims it was issued for plus
`iat`, `exp` and the "wallet" type discriminator; and `verify_wallet_jwt`
returns `none` — not an exception — on an expired token, on a malformed
token, and on an otherwise validly signed token whose type discriminator is
not "wallet". -/
theorem C5_jwt_roundtrip_and_fail_closed
    (secret : String) (tid uid wid wa : String) (cid : Int)
    (now tVerify : Nat) (hfresh : tVerify < now + JWT_EXPIRY_HOURS * 3600) :
    (verify_wallet_jwt secret tVerify
        (generate_wallet_jwt secret now tid uid wid wa cid).access_token =
      some { tenant_id := tid, user_id := uid, wallet_id := wid,
             wallet_address := wa, chain_id := cid,
             exp := now + JWT_EXPIRY_HOURS * 3600, iat := now,
             type := "wallet" }) ∧
    (∀ p : JwtPayload, ∀ tNow : Nat, p.exp ≤ tNow →
      verify_wallet_jwt secret tNow (JwtToken.signed p secret) = none) ∧
    (∀ raw : String, ∀ tNow : Nat,
      verify_wallet_jwt secret tNow (JwtToken.malformed raw) = none) ∧
    (∀ p : JwtPayload, ∀ tNow : Nat, p.type ≠ "wallet" →
      verify_wallet_jwt secret tNow (JwtToken.signed p secret) = none) := by
  refine ⟨?_, ?_, ?_, ?_⟩
  · simp [verify_wallet_jwt, generate_wallet_jwt, jwtEncode, jwtDecode,
      Nat.not_le.mpr hfresh]
  · intro p tNow hexp
    simp [verify_wallet_jwt, jwtDecode, hexp]
  · intro raw tNow
    simp [verify_wallet_jwt, jwtDecode]
  · intro p tNow htype
    by_cases hexp : p.exp ≤ tNow
    · simp [verify_wallet_jwt, jwtDecode, hexp]
    · simp [verify_wallet_jwt, jwtDecode, hexp, htype]

theorem C5_witness :
    (verify_wallet_jwt "secret0" 7
        (generate_wallet_jwt "secret0" 5 "t1" "u1" "w1" "0xabc" 1).access_token =
      some { tenant_id := "t1", user_id := "u1", wallet_id := "w1",
             wallet_address := "0xabc", chain_id := 1,
             exp := 5 + JWT_EXPIRY_HOURS * 3600, iat := 5,
             type := "wallet" }) ∧
    (∀ p : JwtPayload, ∀ tNow : Nat, p.exp ≤ tNow →
      verify_wallet_jwt "secret0" tNow (JwtToken.signed p "secret0") = none) ∧
    (∀ raw : String, ∀ tNow : Nat,
      verify_wallet_jwt "secret0" tNow (JwtToken.malformed raw) = none) ∧
    (∀ p : JwtPayload, ∀ tNow : Nat, p.type ≠ "wallet" →
      verify_wallet_jwt "secret0" tNow (JwtToken.signed p "secret0") = none) :=
  C5_jwt_roundtrip_and_fail_closed "secret0" "t1" "u1" "w1" "0xabc" 1 5 7
    (by decide)

/-- C10: a wallet JWT issued under one signing secret verifies as `none`
under any different secret; and with the `JWT_SECRET` environment variable
unset the secret is the random value drawn at module load, so two processes
whose draws differ cannot verify each other's tokens. -/
theorem C10_jwt_secret_isolation
    (k kOther : String) (tid uid wid wa : String) (cid : Int)
    (now tVerify : Nat) (hne : k ≠ kOther)
    (r1 r2 : String) (hr : r1 ≠ r2) :
    (verify_wallet_jwt kOther tVerify
        (generate_wallet_jwt k now tid uid wid wa cid).access_token = none) ∧
    jwtSecretOf none r1 = r1 ∧
    (∀ env r, jwtSecretOf (some env) r = env) ∧
    (verify_wallet_jwt (jwtSecretOf none r2) tVerify
        (generate_wallet_jwt (jwtSecretOf none r1) now tid uid wid wa
          cid).access_token = none) := by
  refine ⟨?_, rfl, fun env r => rfl, ?_⟩
  · simp [verify_wallet_jwt, generate_wallet_jwt, jwtEncode, jwtDecode, hne]
  · simp [verify_wallet_jwt, generate_wallet_jwt, jwtEncode, jwtDecode,
      jwtSecretOf, hr]

/-! ## Evaluation lemmas for the connect flow -/

theorem find?_setNonceUsed {a nn : String} {l : List WalletNonceRow}
    {n0 : WalletNonceRow}
    (h : l.find? (fun n => n.wallet_address == a && n.nonce == nn) = some n0) :
    (setNonceUsed a nn l).find?
        (fun n => n.wallet_address == a && n.nonce == nn) =
      some { n0 with used := true } := by
  induction l with
  | nil => cases h
  | cons m rest ih =>
    show List.find? (fun n => n.wallet_address == a && n.nonce == nn)
      (if m.wallet_address == a && m.nonce == nn then
        { m with used := true } :: rest
      else m :: setNonceUsed a nn rest) = some { n0 with used := true }
    by_cases hm : (m.wallet_address == a && m.nonce == nn) = true
    · rw [List.find?_cons_of_pos
        (p := fun n => n.wallet_address == a && n.nonce == nn) rest hm] at h
      cases h
      rw [if_pos hm]
      exact List.find?_cons_of_pos
        (p := fun n => n.wallet_address == a && n.nonce == nn)
        (a := { n0 with used := true }) rest hm
    · rw [List.find?_cons_of_neg
        (p := fun n => n.wallet_address == a && n.nonce == nn) rest hm] at h
      rw [if_neg hm, List.find?_cons_of_neg
        (p := fun n => n.wallet_address == a && n.nonce == nn)
        (setNonceUsed a nn rest) hm]
      exact ih h

/-- `userNotFound` is raised as soon as the tenant-scoped user lookup misses,
with no other state consulted. -/
theorem connect_userNotFound {keccak : List Char → List Nat}
    {recover : String → String → Option String} {s : DBState} {now : Nat}
    {tenant_id user_id wallet_address signature nonce : String}
    {chain_id : Int} {wallet_type : String} {label : Option String} {ca : String}
    (hcs : checksum_address keccak wallet_address = Except.ok ca)
    (hfu : s.users.find? (fun u => u.id == user_id && u.tenant_id == tenant_id)
      = none) :
    verify_and_connect_wallet keccak recover s now tenant_id user_id
        wallet_address signature nonce chain_id wallet_type label =
      Except.error (WalletError.userNotFound user_id tenant_id) := by
  simp [verify_and_connect_wallet, hcs, hfu]

/-- A connect attempt presenting an already-used nonce fails with
`nonceAlreadyUsed`. -/
theorem connect_nonceAlreadyUsed {keccak : List Char → List Nat}
    {recover : String → String → Option String} {s : DBState} {now : Nat}
    {tenant_id user_id wallet_address signature nonce : String}
    {chain_id : Int} {wallet_type : String} {label : Option String}
    {ca : String} {u : UserRow} {n : WalletNonceRow}
    (hcs : checksum_address keccak wallet_address = Except.ok ca)
    (hfu : s.users.find? (fun u => u.id == user_id && u.tenant_id == tenant_id)
      = some u)
    (hfn : s.nonces.find? (fun n => n.wallet_address == ca && n.nonce == nonce)
      = some n)
    (hused : n.used = true) :
    verify_and_connect_wallet keccak recover s now tenant_id user_id
        wallet_address signature nonce chain_id wallet_type label =
      Except.error WalletError.nonceAlreadyUsed := by
  simp [verify_and_connect_wallet, hcs, hfu, hfn, hused]

/-- A connect attempt whose signature fails verification raises
`invalidSignature` before the nonce is marked used or any row is written. -/
theorem connect_invalidSignature {keccak : List Char → List Nat}
    {recover : String → String → Option String} {s : DBState} {now : Nat}
    {tenant_id user_id wallet_address signature nonce : String}
    {chain_id : Int} {wallet_type : String} {label : Option String}
    {ca : String} {u : UserRow} {n : WalletNonceRow}
    (hcs : checksum_address keccak wallet_address = Except.ok ca)
    (hfu : s.users.find? (fun u => u.id == user_id && u.tenant_id == tenant_id)
      = some u)
    (hfn : s.nonces.find? (fun n => n.wallet_address == ca && n.nonce == nonce)
      = some n)
    (hused : n.used = false) (hexp : ¬ n.expires_at < now)
    (hvs : verify_signature keccak recover ca signature nonce n.message = false) :
    verify_and_connect_wallet keccak recover s now tenant_id user_id
        wallet_address signature nonce chain_id wallet_type label =
      Except.error WalletError.invalidSignature := by
  simp [verify_and_connect_wallet, hcs, hfu, hfn, hused, hexp, hvs]

/-- A connect attempt with a live nonce and a verifying signature succeeds,
marking the nonce used and upserting the connection. -/
theorem connect_ok_of_valid {keccak : List Char → List Nat}
    {recover : String → String → Option String} {s : DBState} {now : Nat}
    {tenant_id user_id wallet_address signature nonce : String}
    {chain_id : Int} {wallet_type : String} {label : Option String}
    {ca : String} {u : UserRow} {n : WalletNonceRow}
    (hcs : checksum_address keccak wallet_address = Except.ok ca)
    (hfu : s.users.find? (fun u => u.id == user_id && u.tenant_id == tenant_id)
      = some u)
    (hfn : s.nonces.find? (fun n => n.wallet_address == ca && n.nonce == nonce)
      = some n)
    (hused : n.used = false) (hexp : ¬ n.expires_at < now)
    (hvs : verify_signature keccak recover ca signature nonce n.message = true) :
    verify_and_connect_wallet keccak recover s now tenant_id user_id
        wallet_address signature nonce chain_id wallet_type label =
      Except.ok (upsertConnection
        { s with nonces := setNonceUsed ca nonce s.nonces } now tenant_id
        user_id ca chain_id wallet_type label) := by
  simp [verify_and_connect_wallet, hcs, hfu, hfn, hused, hexp, hvs]

/-- The state returned by the upsert carries the users and nonces tables
through unchanged. -/
theorem upsertConnection_users_nonces (s : DBState) (now : Nat)
    (tenant_id user_id checksummed : String) (chain_id : Int)
    (wallet_type : String) (label : Option String) :
    (upsertConnection s now tenant_id user_id checksummed chain_id
        wallet_type label).2.users = s.users ∧
    (upsertConnection s now tenant_id user_id checksummed chain_id
        wallet_type label).2.nonces = s.nonces := by
  unfold upsertConnection
  cases s.wallets.find? (connKey tenant_id user_id checksummed chain_id) <;>
    exact ⟨rfl, rfl⟩

/-- Anatomy of a successful connect: the checksum succeeded, the user and a
live nonce were found, the signature verified against the stored message,
and the result is the upsert over the state whose nonce is now used. -/
theorem connect_ok_spec {keccak : List Char → List Nat}
    {recover : String → String → Option String} {s : DBState} {now : Nat}
    {tenant_id user_id wallet_address signature nonce : String}
    {chain_id : Int} {wallet_type : String} {label : Option String}
    {conn : WalletConnectionRow} {s1 : DBState}
    (h : verify_and_connect_wallet keccak recover s now tenant_id user_id
      wallet_address signature nonce chain_id wallet_type label =
      Except.ok (conn, s1)) :
    ∃ ca u n,
      checksum_address keccak wallet_address = Except.ok ca ∧
      s.users.find? (fun v => v.id == user_id && v.tenant_id == tenant_id)
        = some u ∧
      s.nonces.find? (fun m => m.wallet_address == ca && m.nonce == nonce)
        = some n ∧
      n.used = false ∧ ¬ n.expires_at < now ∧
      verify_signature keccak recover ca signature nonce n.message = true ∧
      (conn, s1) = upsertConnection
        { s with nonces := setNonceUsed ca nonce s.nonces } now tenant_id
        user_id ca chain_id wallet_type label := by
  cases hcs : checksum_address keccak wallet_address with
  | error e => simp [verify_and_connect_wallet, hcs] at h
  | ok ca =>
  cases hfu : s.users.find? (fun v => v.id == user_id && v.tenant_id == tenant_id) with
  | none => simp [verify_and_connect_wallet, hcs, hfu] at h
  | some u =>
  cases hfn : s.nonces.find? (fun m => m.wallet_address == ca && m.nonce == nonce) with
  | none => simp [verify_and_connect_wallet, hcs, hfu, hfn] at h
  | some n =>
  by_cases hused : n.used = true
  · simp [verify_and_connect_wallet, hcs, hfu, hfn, hused] at h
  · by_cases hexp : n.expires_at < now
    · simp [verify_and_connect_wallet, hcs, hfu, hfn, hused, hexp] at h
    · by_cases hvs : verify_signature keccak recover ca signature nonce
          n.message = false
      · simp [verify_and_connect_wallet, hcs, hfu, hfn, hused, hexp, hvs] at h
      · have hused' : n.used = false := by
          revert hused; cases n.used <;> simp
        have hvs' : verify_signature keccak recover ca signature nonce
            n.message = true := by
          revert hvs
          cases verify_signature keccak recover ca signature nonce n.message <;>
            simp
        rw [connect_ok_of_valid hcs hfu hfn hused' hexp hvs'] at h
        injection h with h2
        exact ⟨ca, u, n, rfl, rfl, hfn, hused', hexp, hvs', h2.symm⟩

/-! ## C2: replay rejection -/

/-- C2: once a `verify_and_connect_wallet` call has succeeded for an
(address, nonce) pair, repeating the exact same request against the
resulting state fails with the nonce-already-used error, returns no
connection and no credential, and leaves the state unchanged. -/
theorem C2_replay_rejected {keccak : List Char → List Nat}
    {recover : String → String → Option String} (secret : String)
    {s : DBState} {now : Nat} (now2 : Nat)
    {tenant_id user_id wallet_address signature nonce : String}
    {chain_id : Int} {wallet_type : String} {label : Option String}
    {conn : WalletConnectionRow} {s1 : DBState}
    (h : verify_and_connect_wallet keccak recover s now tenant_id user_id
      wallet_address signature nonce chain_id wallet_type label =
      Except.ok (conn, s1)) :
    verify_endpoint keccak recover secret s1 now2 tenant_id user_id
        wallet_address signature nonce chain_id wallet_type label =
      (Except.error WalletError.nonceAlreadyUsed, s1) := by
  obtain ⟨ca, u, n, hcs, hfu, hfn, hused, hexp, hvs, hup⟩ := connect_ok_spec h
  have hs1 : s1 = (upsertConnection
      { s with nonces := setNonceUsed ca nonce s.nonces } now tenant_id
      user_id ca chain_id wallet_type label).2 := congrArg Prod.snd hup
  obtain ⟨hu2, hn2⟩ := upsertConnection_users_nonces
    { s with nonces := setNonceUsed ca nonce s.nonces } now tenant_id
    user_id ca chain_id wallet_type label
  have hfu2 : s1.users.find?
      (fun v => v.id == user_id && v.tenant_id == tenant_id) = some u := by
    rw [hs1, hu2]; exact hfu
  have hfn2 : s1.nonces.find?
      (fun m => m.wallet_address == ca && m.nonce == nonce)
      = some { n with used := true } := by
    rw [hs1, hn2]
    exact find?_setNonceUsed hfn
  unfold verify_endpoint
  rw [connect_nonceAlreadyUsed hcs hfu2 hfn2 rfl]

theorem C2_witness :
    verify_endpoint keccak0 recover0 "secret0" state1 9 "t1" "u1" addrA
        "sigA" "nA" 1 "metamask" none =
      (Except.error WalletError.nonceAlreadyUsed, state1) := by
  have hca : checksum_address keccak0 addrA = Except.ok addrA := by
    rw [checksum_address_ok_of_valid keccak0
        (show isHexAddress addrA = true from by decide),
      show checksummedOf keccak0 addrA = addrA from by decide]
  have h : verify_and_connect_wallet keccak0 recover0 state0 1 "t1" "u1"
      addrA "sigA" "nA" 1 "metamask" none = Except.ok (connRowA, state1) := by
    rw [connect_ok_of_valid hca
      (show state0.users.find?
        (fun v => v.id == "u1" && v.tenant_id == "t1") = some user0 from
        by decide)
      (show state0.nonces.find?
        (fun m => m.wallet_address == addrA && m.nonce == "nA") =
        some nonceRowA from by decide)
      (show nonceRowA.used = false from by decide)
      (show ¬ nonceRowA.expires_at < 1 from by decide)
      (show verify_signature keccak0 recover0 addrA "sigA" "nA"
        nonceRowA.message = true from by decide)]
    exact congrArg Except.ok (by decide)
  exact C2_replay_rejected "secret0" 9 h

/-! ## C4: tenant-isolation checkpoint -/

/-- C4: when the user does not exist within the tenant, the connect call
fails with the user-not-found error before any durable state changes, and
the outcome is independent of the nonce table — the tenant-isolation
checkpoint precedes nonce lookup and consumption. -/
theorem C4_user_checkpoint_precedes_nonce {keccak : List Char → List Nat}
    {recover : String → String → Option String} {s : DBState} {now : Nat}
    {tenant_id user_id wallet_address signature nonce : String}
    {chain_id : Int} {wallet_type : String} {label : Option String}
    {ca : String}
    (hcs : checksum_address keccak wallet_address = Except.ok ca)
    (hfu : s.users.find? (fun v => v.id == user_id && v.tenant_id == tenant_id)
      = none) :
    runVerifyAndConnect keccak recover s now tenant_id user_id wallet_address
        signature nonce chain_id wallet_type label =
      (Except.error (WalletError.userNotFound user_id tenant_id), s) ∧
    ∀ otherNonces : List WalletNonceRow,
      runVerifyAndConnect keccak recover { s with nonces := otherNonces } now
          tenant_id user_id wallet_address signature nonce chain_id
          wallet_type label =
        (Except.error (WalletError.userNotFound user_id tenant_id),
         { s with nonces := otherNonces }) := by
  constructor
  · unfold runVerifyAndConnect
    rw [connect_userNotFound hcs hfu]
  · intro ns
    unfold runVerifyAndConnect
    rw [connect_userNotFound (s := { s with nonces := ns }) hcs hfu]

theorem C4_witness :
    runVerifyAndConnect keccak0 recover0 state0 1 "t1" "u2" addrA "sigA"
        "nA" 1 "metamask" none =
      (Except.error (WalletError.userNotFound "u2" "t1"), state0) ∧
    ∀ otherNonces : List WalletNonceRow,
      runVerifyAndConnect keccak0 recover0 { state0 with nonces := otherNonces }
          1 "t1" "u2" addrA "sigA" "nA" 1 "metamask" none =
        (Except.error (WalletError.userNotFound "u2" "t1"),
         { state0 with nonces := otherNonces }) := by
  have hca : checksum_address keccak0 addrA = Except.ok addrA := by
    rw [checksum_address_ok_of_valid keccak0
        (show isHexAddress addrA = true from by decide),
      show checksummedOf keccak0 addrA = addrA from by decide]
  exact C4_user_checkpoint_precedes_nonce hca
    (show state0.users.find?
      (fun v => v.id == "u2" && v.tenant_id == "t1") = none from by decide)

/-! ## C1: when the nonce is burned -/

/-- C1 (amended): the nonce is marked `used=true` only after signature
verification succeeds, not on presentation.  A call that fails with an
invalid signature leaves the nonce unconsumed and the state unchanged, so a
later call presenting the same (address, nonce) with a valid signature
succeeds; that successful call is the one that consumes the nonce. -/
theorem C1_nonce_burned_after_verification {keccak : List Char → List Nat}
    {recover : String → String → Option String} {s : DBState} {now : Nat}
    (now2 : Nat) {tenant_id user_id wallet_address : String}
    (sig1 sig2 : String) {nonce : String}
    {chain_id : Int} {wallet_type : String} {label : Option String}
    {ca : String} {u : UserRow} {n : WalletNonceRow}
    (hcs : checksum_address keccak wallet_address = Except.ok ca)
    (hfu : s.users.find? (fun v => v.id == user_id && v.tenant_id == tenant_id)
      = some u)
    (hfn : s.nonces.find? (fun m => m.wallet_address == ca && m.nonce == nonce)
      = some n)
    (hused : n.used = false) (hexp : ¬ n.expires_at < now)
    (hexp2 : ¬ n.expires_at < now2)
    (hbad : verify_signature keccak recover ca sig1 nonce n.message = false)
    (hgood : verify_signature keccak recover ca sig2 nonce n.message = true) :
    runVerifyAndConnect keccak recover s now tenant_id user_id wallet_address
        sig1 nonce chain_id wallet_type label =
      (Except.error WalletError.invalidSignature, s) ∧
    verify_and_connect_wallet keccak recover s now2 tenant_id user_id
        wallet_address sig2 nonce chain_id wallet_type label =
      Except.ok (upsertConnection
        { s with nonces := setNonceUsed ca nonce s.nonces } now2 tenant_id
        user_id ca chain_id wallet_type label) ∧
    (upsertConnection { s with nonces := setNonceUsed ca nonce s.nonces }
        now2 tenant_id user_id ca chain_id wallet_type label).2.nonces.find?
        (fun m => m.wallet_address == ca && m.nonce == nonce)
      = some { n with used := true } := by
  refine ⟨?_, connect_ok_of_valid hcs hfu hfn hused hexp2 hgood, ?_⟩
  · unfold runVerifyAndConnect
    rw [connect_invalidSignature hcs hfu hfn hused hexp hbad]
  · rw [(upsertConnection_users_nonces
      { s with nonces := setNonceUsed ca nonce s.nonces } now2 tenant_id
      user_id ca chain_id wallet_type label).2]
    exact find?_setNonceUsed hfn

theorem C1_witness :
    runVerifyAndConnect keccak0 recover0 state0 1 "t1" "u1" addrA "bad"
        "nA" 1 "metamask" none =
      (Except.error WalletError.invalidSignature, state0) ∧
    verify_and_connect_wallet keccak0 recover0 state0 1 "t1" "u1" addrA
        "sigA" "nA" 1 "metamask" none =
      Except.ok (upsertConnection
        { state0 with nonces := setNonceUsed addrA "nA" state0.nonces } 1
        "t1" "u1" addrA 1 "metamask" none) ∧
    (upsertConnection { state0 with nonces := setNonceUsed addrA "nA" state0.nonces }
        1 "t1" "u1" addrA 1 "metamask" none).2.nonces.find?
        (fun m => m.wallet_address == addrA && m.nonce == "nA")
      = some { nonceRowA with used := true } := by
  have hca : checksum_address keccak0 addrA = Except.ok addrA := by
    rw [checksum_address_ok_of_valid keccak0
        (show isHexAddress addrA = true from by decide),
      show checksummedOf keccak0 addrA = addrA from by decide]
  exact C1_nonce_burned_after_verification 1 "bad" "sigA" hca
    (show state0.users.find?
      (fun v => v.id == "u1" && v.tenant_id == "t1") = some user0 from
      by decide)
    (show state0.nonces.find?
      (fun m => m.wallet_address == addrA && m.nonce == "nA") =
      some nonceRowA from by decide)
    (show nonceRowA.used = false from by decide)
    (show ¬ nonceRowA.expires_at < 1 from by decide)
    (show ¬ nonceRowA.expires_at < 1 from by decide)
    (show verify_signature keccak0 recover0 addrA "bad" "nA"
      nonceRowA.message = false from by decide)
    (show verify_signature keccak0 recover0 addrA "sigA" "nA"
      nonceRowA.message = true from by decide)

/-- C1 (counterexample to the claim as stated): a concrete connect attempt
with an invalid signature fails with `invalidSignature` while leaving the
nonce unconsumed, and a later call successfully consumes the very same
(address, nonce) pair — so the nonce is not burned on presentation. -/
theorem C1_counterexample :
    errOf (runVerifyAndConnect keccak0 recover0 state0 1 "t1" "u1" addrA
        "bad" "nA" 1 "metamask" none).1 =
      some WalletError.invalidSignature ∧
    (runVerifyAndConnect keccak0 recover0 state0 1 "t1" "u1" addrA "bad"
        "nA" 1 "metamask" none).2 = state0 ∧
    (state0.nonces.find?
        (fun m => m.wallet_address == addrA && m.nonce == "nA")).map
        (fun m => m.used) = some false ∧
    exceptOk (runVerifyAndConnect keccak0 recover0 state0 2 "t1" "u1" addrA
        "sigA" "nA" 1 "metamask" none).1 = true := by
  refine ⟨?_, ?_, ?_, ?_⟩ <;> decide

theorem C10_witness :
    (verify_wallet_jwt "other" 7
        (generate_wallet_jwt "secret0" 5 "t1" "u1" "w1" "0xabc" 1).access_token =
      none) ∧
    jwtSecretOf none "rand1" = "rand1" ∧
    (∀ env r, jwtSecretOf (some env) r = env) ∧
    (verify_wallet_jwt (jwtSecretOf none "rand2") 7
        (generate_wallet_jwt (jwtSecretOf none "rand1") 5 "t1" "u1" "w1"
          "0xabc" 1).access_token = none) :=
  C10_jwt_secret_isolation "secret0" "other" "t1" "u1" "w1" "0xabc" 1 5 7
    (by decide) "rand1" "rand2" (by decide)

/-! ## C7: total signature verification -/

/-- C7 (amended): `verify_signature` never throws on any input — it is a
total Boolean function, and every failure (invalid claimed address or an
undecodable signature, where the recovery library raises) is a `false`
return, not an error; for decodable inputs it returns true iff the
recovered address equals the canonical claimed address case-insensitively.
It performs no writes (it reads none of the mutable state). -/
theorem C7_verify_signature_never_throws
    (keccak : List Char → List Nat)
    (recover : String → String → Option String)
    (wallet_address signature nonce message ca : String)
    (hcs : checksum_address keccak wallet_address = Except.ok ca) :
    (∀ badAddr e, checksum_address keccak badAddr = Except.error e →
      verify_signature keccak recover badAddr signature nonce message = false) ∧
    (recover message signature = none →
      verify_signature keccak recover wallet_address signature nonce message
        = false) ∧
    (∀ r, recover message signature = some r →
      (verify_signature keccak recover wallet_address signature nonce message
          = true ↔ strLower r = strLower ca)) := by
  refine ⟨?_, ?_, ?_⟩
  · intro badAddr e he
    simp [verify_signature, he]
  · intro hrec
    simp [verify_signature, hcs, hrec]
  · intro r hrec
    simp [verify_signature, hcs, hrec]

theorem C7_witness :
    verify_signature keccak0 recover0 "nothex" "sigA" "nA" "mA" = false ∧
    verify_signature keccak0 recover0 addrA "garbage" "nA" "mA" = false ∧
    (verify_signature keccak0 recover0 addrA "sigA" "nA" "mA" = true ↔
      strLower addrA = strLower addrA) := by
  have hca : checksum_address keccak0 addrA = Except.ok addrA := by
    rw [checksum_address_ok_of_valid keccak0
        (show isHexAddress addrA = true from by decide),
      show checksummedOf keccak0 addrA = addrA from by decide]
  refine ⟨?_, ?_, ?_⟩
  · exact (C7_verify_signature_never_throws keccak0 recover0 addrA "sigA"
      "nA" "mA" addrA hca).1 "nothex" _
      (checksum_address_error_of_invalid keccak0
        (show isHexAddress "nothex" = false from by decide))
  · exact (C7_verify_signature_never_throws keccak0 recover0 addrA "garbage"
      "nA" "mA" addrA hca).2.1 (by decide)
  · exact (C7_verify_signature_never_throws keccak0 recover0 addrA "sigA"
      "nA" "mA" addrA hca).2.2 addrA (by decide)

/-- C7 (counterexample to the claim as stated): for a signature so malformed
that decoding is impossible (the recovery library raises), no
`SignatureFormatError` surfaces — the `except Exception` handler turns it
into a plain `false` return; no such error class exists in the code. -/
theorem C7_counterexample :
    recover0 "mA" "garbage" = none ∧
    verify_signature keccak0 recover0 addrA "garbage" "nA" "mA" = false := by
  exact ⟨by decide, by decide⟩

/-! ## C8: the wire-format template and the stored message -/

set_option maxRecDepth 8192

/-- `create_siwe_message` matches the spec's ten-line template verbatim. -/
theorem create_siwe_message_eq_template (cfg : WalletAuthConfig)
    (address nonce issued_at : String) :
    create_siwe_message cfg address nonce issued_at =
      String.intercalate "\n"
        (specSiweLines cfg.siwe_domain cfg.siwe_uri address nonce issued_at) := by
  simp [create_siwe_message, specSiweLines, String.intercalate,
    String.intercalate.go]
  apply String.ext
  simp [String.data_append]

/-- C8: the challenge message is exactly the fixed ten-line template
(including the literal "Chain ID: 1" line), `generate_nonce` stores exactly
that string, and `verify_and_connect_wallet` decides the signature check by
`verify_signature` applied to the *stored* message of the nonce row — byte
for byte, never a regenerated message. -/
theorem C8_template_and_stored_message
    {keccak : List Char → List Nat}
    {recover : String → String → Option String} {s : DBState} {now : Nat}
    {tenant_id user_id wallet_address signature nonce : String}
    {chain_id : Int} {wallet_type : String} {label : Option String}
    {ca : String} {u : UserRow} {n : WalletNonceRow}
    (hcs : checksum_address keccak wallet_address = Except.ok ca)
    (hfu : s.users.find? (fun v => v.id == user_id && v.tenant_id == tenant_id)
      = some u)
    (hfn : s.nonces.find? (fun m => m.wallet_address == ca && m.nonce == nonce)
      = some n)
    (hused : n.used = false) (hexp : ¬ n.expires_at < now) :
    (∀ cfg a nn t, create_siwe_message cfg a nn t =
      String.intercalate "\n" (specSiweLines cfg.siwe_domain cfg.siwe_uri a nn t)) ∧
    (∀ cfg tGen iso fresh addr nd,
      generate_nonce keccak cfg tGen iso fresh addr = Except.ok nd →
      nd.message = create_siwe_message cfg nd.wallet_address fresh iso) ∧
    (verify_signature keccak recover ca signature nonce n.message = false →
      verify_and_connect_wallet keccak recover s now tenant_id user_id
          wallet_address signature nonce chain_id wallet_type label =
        Except.error WalletError.invalidSignature) ∧
    (verify_signature keccak recover ca signature nonce n.message = true →
      verify_and_connect_wallet keccak recover s now tenant_id user_id
          wallet_address signature nonce chain_id wallet_type label =
        Except.ok (upsertConnection
          { s with nonces := setNonceUsed ca nonce s.nonces } now tenant_id
          user_id ca chain_id wallet_type label)) := by
  refine ⟨fun cfg a nn t => create_siwe_message_eq_template cfg a nn t,
    ?_, ?_, ?_⟩
  · intro cfg tGen iso fresh addr nd hgen
    cases hc : checksum_address keccak addr with
    | error e => simp [generate_nonce, hc] at hgen
    | ok cb =>
      simp only [generate_nonce, hc, Except.ok.injEq] at hgen
      rw [← hgen]
  · intro hbad
    exact connect_invalidSignature hcs hfu hfn hused hexp hbad
  · intro hgood
    exact connect_ok_of_valid hcs hfu hfn hused hexp hgood

theorem C8_witness :
    (∀ cfg a nn t, create_siwe_message cfg a nn t =
      String.intercalate "\n" (specSiweLines cfg.siwe_domain cfg.siwe_uri a nn t)) ∧
    (∀ cfg tGen iso fresh addr nd,
      generate_nonce keccak0 cfg tGen iso fresh addr = Except.ok nd →
      nd.message = create_siwe_message cfg nd.wallet_address fresh iso) ∧
    (verify_signature keccak0 recover0 addrA "sigA" "nA" nonceRowA.message = false →
      verify_and_connect_wallet keccak0 recover0 state0 1 "t1" "u1" addrA
          "sigA" "nA" 1 "metamask" none =
        Except.error WalletError.invalidSignature) ∧
    (verify_signature keccak0 recover0 addrA "sigA" "nA" nonceRowA.message = true →
      verify_and_connect_wallet keccak0 recover0 state0 1 "t1" "u1" addrA
          "sigA" "nA" 1 "metamask" none =
        Except.ok (upsertConnection
          { state0 with nonces := setNonceUsed addrA "nA" state0.nonces } 1
          "t1" "u1" addrA 1 "metamask" none)) := by
  have hca : checksum_address keccak0 addrA = Except.ok addrA := by
    rw [checksum_address_ok_of_valid keccak0
        (show isHexAddress addrA = true from by decide),
      show checksummedOf keccak0 addrA = addrA from by decide]
  exact C8_template_and_stored_message hca
    (show state0.users.find?
      (fun v => v.id == "u1" && v.tenant_id == "t1") = some user0 from
      by decide)
    (show state0.nonces.find?
      (fun m => m.wallet_address == addrA && m.nonce == "nA") =
      some nonceRowA from by decide)
    (show nonceRowA.used = false from by decide)
    (show ¬ nonceRowA.expires_at < 1 from by decide)

/-! ## C6: nonce store idempotence and rotation -/

theorem removeNonceFor_sublist (a : String) (l : List WalletNonceRow) :
    (removeNonceFor a l).Sublist l := by
  induction l with
  | nil => exact List.Sublist.refl _
  | cons m rest ih =>
    show (if m.wallet_address == a then rest
      else m :: removeNonceFor a rest).Sublist (m :: rest)
    by_cases hm : (m.wallet_address == a) = true
    · rw [if_pos hm]
      exact List.Sublist.cons m (List.Sublist.refl rest)
    · rw [if_neg hm]
      exact List.Sublist.cons₂ m ih

theorem notMem_map_addr_of_find?_none {a : String} {l : List WalletNonceRow}
    (h : l.find? (fun n => n.wallet_address == a) = none) :
    a ∉ l.map (fun n => n.wallet_address) := by
  intro hmem
  rcases List.mem_map.mp hmem with ⟨x, hx, hxa⟩
  have hnx := List.find?_eq_none.mp h x hx
  simp [hxa] at hnx

theorem find?_removeNonceFor_none {a : String} {l : List WalletNonceRow}
    (hnd : (l.map (fun n => n.wallet_address)).Nodup) :
    (removeNonceFor a l).find? (fun n => n.wallet_address == a) = none := by
  induction l with
  | nil => rfl
  | cons m rest ih =>
    rw [List.map_cons, List.nodup_cons] at hnd
    show (if m.wallet_address == a then rest
      else m :: removeNonceFor a rest).find?
        (fun n => n.wallet_address == a) = none
    by_cases hm : (m.wallet_address == a) = true
    · rw [if_pos hm]
      have hma : m.wallet_address = a := by simpa using hm
      apply List.find?_eq_none.mpr
      intro x hx hxa
      have hxa' : x.wallet_address = a := by simpa using hxa
      exact hnd.1 (by rw [hma, ← hxa']; exact List.mem_map_of_mem _ hx)
    · rw [if_neg hm, List.find?_cons_of_neg
        (p := fun n => n.wallet_address == a) (removeNonceFor a rest) hm]
      exact ih hnd.2

/-- Direct evaluation: an unused, unexpired nonce is returned unchanged with
the stored message, and the state is untouched. -/
theorem cogn_existing_valid {keccak : List Char → List Nat}
    {cfg : WalletAuthConfig} {now : Nat} {iso fresh : String} {s : DBState}
    {a ca : String} {n : WalletNonceRow}
    (hcs : checksum_address keccak a = Except.ok ca)
    (hfind : s.nonces.find? (fun m => m.wallet_address == ca) = some n)
    (hstale : ¬ (n.used = true ∨ n.expires_at < now)) :
    create_or_get_nonce keccak cfg now iso fresh s a =
      Except.ok ({ wallet_address := n.wallet_address, nonce := n.nonce,
                   expires_at := n.expires_at, message := n.message }, s) := by
  simp [create_or_get_nonce, hcs, hfind, hstale]

/-- The fresh nonce data generated when no valid nonce is outstanding. -/
def freshNonceData (cfg : WalletAuthConfig) (now : Nat)
    (iso fresh ca : String) : WalletNonce :=
  { wallet_address := ca, nonce := fresh,
    expires_at := now + NONCE_EXPIRY_MINUTES * 60,
    message := create_siwe_message cfg ca fresh iso }

/-- Direct evaluation: a stale (used or expired) nonce is deleted and a
fresh one is generated, persisted and returned. -/
theorem cogn_stale {keccak : List Char → List Nat}
    {cfg : WalletAuthConfig} {now : Nat} {iso fresh : String} {s : DBState}
    {a ca : String} {n : WalletNonceRow}
    (hcs : checksum_address keccak a = Except.ok ca)
    (hfind : s.nonces.find? (fun m => m.wallet_address == ca) = some n)
    (hstale : n.used = true ∨ n.expires_at < now) :
    create_or_get_nonce keccak cfg now iso fresh s a =
      Except.ok (freshNonceData cfg now iso fresh ca,
        { s with nonces := removeNonceFor ca s.nonces ++
            [rowOfNonce (freshNonceData cfg now iso fresh ca)] }) := by
  simp [create_or_get_nonce, hcs, hfind, hstale, generate_nonce,
    checksum_address_idem keccak hcs, freshNonceData]

/-- Direct evaluation: with no nonce on record a fresh one is generated,
persisted and returned. -/
theorem cogn_missing {keccak : List Char → List Nat}
    {cfg : WalletAuthConfig} {now : Nat} {iso fresh : String} {s : DBState}
    {a ca : String}
    (hcs : checksum_address keccak a = Except.ok ca)
    (hfind : s.nonces.find? (fun m => m.wallet_address == ca) = none) :
    create_or_get_nonce keccak cfg now iso fresh s a =
      Except.ok (freshNonceData cfg now iso fresh ca,
        { s with nonces := s.nonces ++
            [rowOfNonce (freshNonceData cfg now iso fresh ca)] }) := by
  simp [create_or_get_nonce, hcs, hfind, generate_nonce,
    checksum_address_idem keccak hcs, freshNonceData]

/-- C6: two sequential `create_or_get_nonce` calls while the nonce is live
return the same nonce, message and state (idempotence); once the stored
nonce is consumed or expired, the stale row is deleted and a freshly drawn,
different nonce is created and returned. -/
theorem C6_nonce_idempotent_and_rotated
    (keccak : List Char → List Nat) (cfg : WalletAuthConfig) :
    (∀ s a nd s1 now1 iso1 fresh1 now2 iso2 fresh2,
      (s.nonces.map (fun m => m.wallet_address)).Nodup →
      create_or_get_nonce keccak cfg now1 iso1 fresh1 s a = Except.ok (nd, s1) →
      ¬ nd.expires_at < now2 →
      create_or_get_nonce keccak cfg now2 iso2 fresh2 s1 a =
        Except.ok (nd, s1)) ∧
    (∀ s a ca n now iso fresh,
      checksum_address keccak a = Except.ok ca →
      s.nonces.find? (fun m => m.wallet_address == ca) = some n →
      (n.used = true ∨ n.expires_at < now) →
      fresh ≠ n.nonce →
      create_or_get_nonce keccak cfg now iso fresh s a =
        Except.ok (freshNonceData cfg now iso fresh ca,
          { s with nonces := removeNonceFor ca s.nonces ++
              [rowOfNonce (freshNonceData cfg now iso fresh ca)] }) ∧
      (freshNonceData cfg now iso fresh ca).nonce ≠ n.nonce) := by
  constructor
  · intro s a nd s1 now1 iso1 fresh1 now2 iso2 fresh2 hnd h1 hexp2
    cases hcs : checksum_address keccak a with
    | error e => simp [create_or_get_nonce, hcs] at h1
    | ok ca =>
      cases hfind : s.nonces.find? (fun m => m.wallet_address == ca) with
      | none =>
        rw [cogn_missing hcs hfind] at h1
        injection h1 with h1'
        injection h1' with hnd1 hs1
        subst hnd1; subst hs1
        have hfind2 : (DBState.mk s.users
            (s.nonces ++ [rowOfNonce (freshNonceData cfg now1 iso1 fresh1 ca)])
            s.wallets).nonces.find? (fun m => m.wallet_address == ca) =
            some (rowOfNonce (freshNonceData cfg now1 iso1 fresh1 ca)) := by
          show (s.nonces ++
            [rowOfNonce (freshNonceData cfg now1 iso1 fresh1 ca)]).find?
            (fun m => m.wallet_address == ca) =
            some (rowOfNonce (freshNonceData cfg now1 iso1 fresh1 ca))
          rw [List.find?_append, hfind]
          simp [rowOfNonce, freshNonceData]
        have hstale2 : ¬ ((rowOfNonce
            (freshNonceData cfg now1 iso1 fresh1 ca)).used = true ∨
            (rowOfNonce (freshNonceData cfg now1 iso1 fresh1 ca)).expires_at
              < now2) := by
          intro hor
          rcases hor with hu | he
          · exact absurd hu (by simp [rowOfNonce])
          · exact hexp2 he
        exact cogn_existing_valid hcs hfind2 hstale2
      | some n =>
        by_cases hstale : (n.used = true ∨ n.expires_at < now1)
        · rw [cogn_stale hcs hfind hstale] at h1
          injection h1 with h1'
          injection h1' with hnd1 hs1
          subst hnd1; subst hs1
          have hfind2 : (DBState.mk s.users
              (removeNonceFor ca s.nonces ++
                [rowOfNonce (freshNonceData cfg now1 iso1 fresh1 ca)])
              s.wallets).nonces.find? (fun m => m.wallet_address == ca) =
              some (rowOfNonce (freshNonceData cfg now1 iso1 fresh1 ca)) := by
            show (removeNonceFor ca s.nonces ++
              [rowOfNonce (freshNonceData cfg now1 iso1 fresh1 ca)]).find?
              (fun m => m.wallet_address == ca) =
              some (rowOfNonce (freshNonceData cfg now1 iso1 fresh1 ca))
            rw [List.find?_append, find?_removeNonceFor_none hnd]
            simp [rowOfNonce, freshNonceData]
          have hstale2 : ¬ ((rowOfNonce
              (freshNonceData cfg now1 iso1 fresh1 ca)).used = true ∨
              (rowOfNonce (freshNonceData cfg now1 iso1 fresh1 ca)).expires_at
                < now2) := by
            intro hor
            rcases hor with hu | he
            · exact absurd hu (by simp [rowOfNonce])
            · exact hexp2 he
          exact cogn_existing_valid hcs hfind2 hstale2
        · rw [cogn_existing_valid hcs hfind hstale] at h1
          injection h1 with h1'
          injection h1' with hnd1 hs1
          subst hnd1; subst hs1
          have hstale2 : ¬ (n.used = true ∨ n.expires_at < now2) := by
            intro hor
            rcases hor with hu | he
            · exact hstale (Or.inl hu)
            · exact hexp2 he
          exact cogn_existing_valid hcs hfind hstale2
  · intro s a ca n now iso fresh hcs hfind hstale hne
    exact ⟨cogn_stale hcs hfind hstale, hne⟩

theorem C6_witness :
    (create_or_get_nonce keccak0 cfg0 60 "iso2" "fresh2" state0 addrA =
      Except.ok ({ wallet_address := addrA, nonce := "nA",
                   expires_at := 100, message := "mA" }, state0)) ∧
    (create_or_get_nonce keccak0 cfg0 200 "iso3" "fresh3" state0 addrA =
      Except.ok (freshNonceData cfg0 200 "iso3" "fresh3" addrA,
        { state0 with nonces := removeNonceFor addrA state0.nonces ++
            [rowOfNonce (freshNonceData cfg0 200 "iso3" "fresh3" addrA)] }) ∧
      (freshNonceData cfg0 200 "iso3" "fresh3" addrA).nonce ≠ "nA") := by
  have hca : checksum_address keccak0 addrA = Except.ok addrA := by
    rw [checksum_address_ok_of_valid keccak0
        (show isHexAddress addrA = true from by decide),
      show checksummedOf keccak0 addrA = addrA from by decide]
  have h1 : create_or_get_nonce keccak0 cfg0 50 "iso1" "fresh1" state0 addrA =
      Except.ok ({ wallet_address := addrA, nonce := "nA",
                   expires_at := 100, message := "mA" }, state0) :=
    cogn_existing_valid hca
      (show state0.nonces.find? (fun m => m.wallet_address == addrA) =
        some nonceRowA from by decide)
      (by decide)
  constructor
  · exact (C6_nonce_idempotent_and_rotated keccak0 cfg0).1 state0 addrA
      { wallet_address := addrA, nonce := "nA", expires_at := 100,
        message := "mA" } state0 50 "iso1" "fresh1" 60 "iso2" "fresh2"
      (by decide) h1 (by decide)
  · exact (C6_nonce_idempotent_and_rotated keccak0 cfg0).2 state0 addrA addrA
      nonceRowA 200 "iso3" "fresh3" hca
      (show state0.nonces.find? (fun m => m.wallet_address == addrA) =
        some nonceRowA from by decide)
      (Or.inr (by decide)) (by decide)

/-! ## C3: the primary-wallet invariant -/

theorem countP_updateExistingWallet (now : Nat) (wt : String)
    (lab : Option String) (tid uid ca : String) (cid : Int)
    (q : WalletConnectionRow → Bool)
    (hq : ∀ w : WalletConnectionRow, q (reverifyRow now wt lab w) = q w)
    (l : List WalletConnectionRow) :
    (updateExistingWallet now wt lab tid uid ca cid l).countP q =
      l.countP q := by
  induction l with
  | nil => rfl
  | cons w rest ih =>
    show (if connKey tid uid ca cid w then
        reverifyRow now wt lab w :: rest
      else w :: updateExistingWallet now wt lab tid uid ca cid rest).countP q
      = (w :: rest).countP q
    by_cases hw : connKey tid uid ca cid w = true
    · rw [if_pos hw, List.countP_cons, List.countP_cons, hq w]
    · rw [if_neg hw, List.countP_cons, List.countP_cons, ih]

/-- Re-verifying an existing connection never changes any primary flag. -/
theorem atMostOne_upsert {s : DBState} (now : Nat)
    (tid uid ca : String) (cid : Int) (wt : String) (lab : Option String)
    (hinv : AtMostOnePrimary s) :
    AtMostOnePrimary (upsertConnection s now tid uid ca cid wt lab).2 := by
  intro t u2
  cases hfw : s.wallets.find? (connKey tid uid ca cid) with
  | some existing =>
    have hwl : (upsertConnection s now tid uid ca cid wt lab).2.wallets =
        updateExistingWallet now wt lab tid uid ca cid s.wallets := by
      simp [upsertConnection, hfw]
    unfold primaryCount
    rw [hwl, countP_updateExistingWallet now wt lab tid uid ca cid
      (fun w => w.tenant_id == t && w.user_id == u2 && w.is_primary)
      (fun w => rfl)]
    exact hinv t u2
  | none =>
    have hwl : (upsertConnection s now tid uid ca cid wt lab).2.wallets =
        s.wallets ++ [newConnectionRow s now tid uid ca cid wt lab] := by
      simp [upsertConnection, hfw]
    unfold primaryCount
    rw [hwl, List.countP_append]
    have hsingle : List.countP (fun w => w.tenant_id == t && w.user_id == u2
        && w.is_primary) [newConnectionRow s now tid uid ca cid wt lab]
        ≤ 1 := le_trans (List.countP_le_length _) (by simp)
    by_cases hqn : ((newConnectionRow s now tid uid ca cid wt lab).tenant_id
        == t && (newConnectionRow s now tid uid ca cid wt lab).user_id == u2
        && (newConnectionRow s now tid uid ca cid wt lab).is_primary) = true
    · have hqn' : tid = t ∧ uid = u2 ∧
          (s.wallets.countP
            (fun w => w.tenant_id == tid && w.user_id == uid) == 0) = true := by
        simpa [newConnectionRow, Bool.and_eq_true, beq_iff_eq,
          and_assoc] using hqn
      obtain ⟨ht, hu, hz⟩ := hqn'
      subst ht
      subst hu
      have hz' : s.wallets.countP
          (fun w => w.tenant_id == tid && w.user_id == uid) = 0 := by
        simpa using hz
      have hmono : s.wallets.countP
          (fun w => w.tenant_id == tid && w.user_id == uid && w.is_primary) ≤
          s.wallets.countP
          (fun w => w.tenant_id == tid && w.user_id == uid) := by
        apply List.countP_mono_left
        intro x _ hx
        simp only [Bool.and_eq_true] at hx ⊢
        exact hx.1
      have h0 : s.wallets.countP
          (fun w => w.tenant_id == tid && w.user_id == uid && w.is_primary)
          = 0 := Nat.le_zero.mp (le_trans hmono (Nat.le_of_eq hz'))
      omega
    · have h1 : List.countP (fun w => w.tenant_id == t && w.user_id == u2
          && w.is_primary) [newConnectionRow s now tid uid ca cid wt lab]
          = 0 := by
        simp only [List.countP_cons, List.countP_nil]
        simp only [Bool.not_eq_true] at hqn
        simp [hqn]
      rw [h1]
      simpa using hinv t u2

/-- A successful connect preserves the at-most-one-primary invariant. -/
theorem atMostOne_connect {keccak : List Char → List Nat}
    {recover : String → String → Option String} {s : DBState} {now : Nat}
    {tenant_id user_id wallet_address signature nonce : String}
    {chain_id : Int} {wallet_type : String} {label : Option String}
    {conn : WalletConnectionRow} {s1 : DBState}
    (hinv : AtMostOnePrimary s)
    (h : verify_and_connect_wallet keccak recover s now tenant_id user_id
      wallet_address signature nonce chain_id wallet_type label =
      Except.ok (conn, s1)) :
    AtMostOnePrimary s1 := by
  obtain ⟨ca, u, n, hcs, hfu, hfn, hused, hexp, hvs, hup⟩ := connect_ok_spec h
  have hs1 : s1 = (upsertConnection
      { s with nonces := setNonceUsed ca nonce s.nonces } now tenant_id
      user_id ca chain_id wallet_type label).2 := congrArg Prod.snd hup
  rw [hs1]
  apply atMostOne_upsert
  intro t u2
  exact hinv t u2

theorem countP_setPrimaryMap_same (tid uid wid : String)
    (l : List WalletConnectionRow) :
    (l.map (setPrimaryMap tid uid wid)).countP
      (fun w => w.tenant_id == tid && w.user_id == uid && w.is_primary) =
    l.countP
      (fun w => w.tenant_id == tid && w.user_id == uid && w.id == wid) := by
  rw [List.countP_map]
  apply List.countP_congr
  intro w _
  have hbe : ((setPrimaryMap tid uid wid w).tenant_id == tid &&
      (setPrimaryMap tid uid wid w).user_id == uid &&
      (setPrimaryMap tid uid wid w).is_primary) =
      (w.tenant_id == tid && w.user_id == uid && w.id == wid) := by
    by_cases hsw : (w.tenant_id == tid && w.user_id == uid) = true
    · simp [setPrimaryMap, hsw]
    · have hsw' : (w.tenant_id == tid && w.user_id == uid) = false := by
        revert hsw; cases (w.tenant_id == tid && w.user_id == uid) <;> simp
      simp [setPrimaryMap, hsw, hsw']
  show ((setPrimaryMap tid uid wid w).tenant_id == tid &&
      (setPrimaryMap tid uid wid w).user_id == uid &&
      (setPrimaryMap tid uid wid w).is_primary) = true ↔
    (w.tenant_id == tid && w.user_id == uid && w.id == wid) = true
  rw [hbe]

theorem countP_setPrimaryMap_other (tid uid wid t u2 : String)
    (hne : ¬ (tid = t ∧ uid = u2)) (l : List WalletConnectionRow) :
    (l.map (setPrimaryMap tid uid wid)).countP
      (fun w => w.tenant_id == t && w.user_id == u2 && w.is_primary) =
    l.countP
      (fun w => w.tenant_id == t && w.user_id == u2 && w.is_primary) := by
  rw [List.countP_map]
  apply List.countP_congr
  intro w _
  have hbe : ((setPrimaryMap tid uid wid w).tenant_id == t &&
      (setPrimaryMap tid uid wid w).user_id == u2 &&
      (setPrimaryMap tid uid wid w).is_primary) =
      (w.tenant_id == t && w.user_id == u2 && w.is_primary) := by
    by_cases hsw : (w.tenant_id == tid && w.user_id == uid) = true
    · by_cases hs2 : (w.tenant_id == t && w.user_id == u2) = true
      · exfalso
        apply hne
        simp only [Bool.and_eq_true, beq_iff_eq] at hsw hs2
        exact ⟨hsw.1.symm.trans hs2.1, hsw.2.symm.trans hs2.2⟩
      · have hs2' : (w.tenant_id == t && w.user_id == u2) = false := by
          revert hs2; cases (w.tenant_id == t && w.user_id == u2) <;> simp
        simp [setPrimaryMap, hsw, hs2']
    · simp [setPrimaryMap, hsw]
  show ((setPrimaryMap tid uid wid w).tenant_id == t &&
      (setPrimaryMap tid uid wid w).user_id == u2 &&
      (setPrimaryMap tid uid wid w).is_primary) = true ↔
    (w.tenant_id == t && w.user_id == u2 && w.is_primary) = true
  rw [hbe]

/-- The number of rows in `l` carrying a given id, as bounded by the primary
key uniqueness of the `id` column. -/
theorem countP_id_le_one (l : List WalletConnectionRow) (wid : String)
    (hnodup : (l.map (fun w => w.id)).Nodup) :
    l.countP (fun w => w.id == wid) ≤ 1 := by
  have h1 : l.countP (fun w => w.id == wid) =
      (l.map (fun w => w.id)).countP (fun i => i == wid) := by
    rw [List.countP_map]
    rfl
  rw [h1, ← List.count_eq_countP]
  exact List.nodup_iff_count_le_one.mp hnodup wid

/-- `set_primary_wallet`: preserves at-most-one-primary; a successful call
leaves exactly one primary in the scope; a failed call leaves the state
unchanged. -/
theorem set_primary_spec (s : DBState) (tid uid wid : String)
    (hnodup : (s.wallets.map (fun w => w.id)).Nodup) :
    (AtMostOnePrimary s →
      AtMostOnePrimary (set_primary_wallet s tid uid wid).2) ∧
    ((set_primary_wallet s tid uid wid).1 = true →
      primaryCount (set_primary_wallet s tid uid wid).2 tid uid = 1) ∧
    ((set_primary_wallet s tid uid wid).1 = false →
      (set_primary_wallet s tid uid wid).2 = s) := by
  cases hfw : s.wallets.find? (fun w => w.id == wid &&
      w.tenant_id == tid && w.user_id == uid) with
  | none =>
    refine ⟨?_, ?_, ?_⟩
    · intro hinv
      simp only [set_primary_wallet, hfw]
      exact hinv
    · intro htrue
      simp [set_primary_wallet, hfw] at htrue
    · intro _
      simp [set_primary_wallet, hfw]
  | some w0 =>
    have hcnt_le : s.wallets.countP
        (fun w => w.tenant_id == tid && w.user_id == uid && w.id == wid)
        ≤ 1 := by
      refine le_trans (List.countP_mono_left ?_)
        (countP_id_le_one s.wallets wid hnodup)
      intro x _ hx
      simp only [Bool.and_eq_true] at hx
      exact hx.2
    have hw0 := List.find?_some hfw
    have hcnt_ge : 1 ≤ s.wallets.countP
        (fun w => w.tenant_id == tid && w.user_id == uid && w.id == wid) := by
      refine Nat.succ_le_of_lt (List.countP_pos_iff.mpr
        ⟨w0, List.mem_of_find?_eq_some hfw, ?_⟩)
      simp only [Bool.and_eq_true] at hw0 ⊢
      exact ⟨⟨hw0.1.2, hw0.2⟩, hw0.1.1⟩
    refine ⟨?_, ?_, ?_⟩
    · intro hinv t u2
      have hwl : (set_primary_wallet s tid uid wid).2.wallets =
          s.wallets.map (setPrimaryMap tid uid wid) := by
        simp [set_primary_wallet, hfw]
      unfold primaryCount
      rw [hwl]
      by_cases hsc : tid = t ∧ uid = u2
      · obtain ⟨rfl, rfl⟩ := hsc
        rw [countP_setPrimaryMap_same]
        exact hcnt_le
      · rw [countP_setPrimaryMap_other tid uid wid t u2 hsc]
        exact hinv t u2
    · intro _
      have hwl : (set_primary_wallet s tid uid wid).2.wallets =
          s.wallets.map (setPrimaryMap tid uid wid) := by
        simp [set_primary_wallet, hfw]
      unfold primaryCount
      rw [hwl, countP_setPrimaryMap_same]
      exact Nat.le_antisymm hcnt_le hcnt_ge
    · intro hfalse
      simp [set_primary_wallet, hfw] at hfalse

theorem removeWallet_sublist (wid tid uid : String)
    (l : List WalletConnectionRow) :
    (removeWallet wid tid uid l).Sublist l := by
  induction l with
  | nil => exact List.Sublist.refl _
  | cons w rest ih =>
    show (if w.id == wid && w.tenant_id == tid && w.user_id == uid then rest
      else w :: removeWallet wid tid uid rest).Sublist (w :: rest)
    by_cases hw : (w.id == wid && w.tenant_id == tid && w.user_id == uid) = true
    · rw [if_pos hw]
      exact List.Sublist.cons w (List.Sublist.refl rest)
    · rw [if_neg hw]
      exact List.Sublist.cons₂ w ih

/-- `disconnect_wallet` never increases any primary count: the invariant is
preserved, and — since no promotion happens — a scope with zero primaries
still has zero afterwards. -/
theorem disconnect_primary_spec (s : DBState) (tid uid wid : String) :
    (AtMostOnePrimary s →
      AtMostOnePrimary (disconnect_wallet s tid uid wid).2) ∧
    (∀ t u2, primaryCount s t u2 = 0 →
      primaryCount (disconnect_wallet s tid uid wid).2 t u2 = 0) := by
  cases hfw : s.wallets.find? (fun w => w.id == wid &&
      w.tenant_id == tid && w.user_id == uid) with
  | none =>
    constructor
    · intro hinv
      simp only [disconnect_wallet, hfw]
      exact hinv
    · intro t u2 h0
      simp only [disconnect_wallet, hfw]
      exact h0
  | some w0 =>
    have hwl : (disconnect_wallet s tid uid wid).2.wallets =
        removeWallet wid tid uid s.wallets := by
      simp [disconnect_wallet, hfw]
    constructor
    · intro hinv t u2
      unfold primaryCount
      rw [hwl]
      exact le_trans
        ((removeWallet_sublist wid tid uid s.wallets).countP_le _)
        (hinv t u2)
    · intro t u2 h0
      unfold primaryCount at h0 ⊢
      rw [hwl]
      exact Nat.le_zero.mp (h0 ▸
        (removeWallet_sublist wid tid uid s.wallets).countP_le _)

/-- After deleting the primary, later first-time connections into a
still-populated scope do not become primary: zero primaries persist. -/
theorem primaryZero_upsert_new (s : DBState) (now : Nat)
    (tid uid ca : String) (cid : Int) (wt : String) (lab : Option String)
    (hfw : s.wallets.find? (connKey tid uid ca cid) = none)
    (hne : scopeCount s tid uid ≠ 0)
    (h0 : primaryCount s tid uid = 0) :
    primaryCount (upsertConnection s now tid uid ca cid wt lab).2 tid uid
      = 0 := by
  have hwl : (upsertConnection s now tid uid ca cid wt lab).2.wallets =
      s.wallets ++ [newConnectionRow s now tid uid ca cid wt lab] := by
    simp [upsertConnection, hfw]
  unfold primaryCount at h0 ⊢
  rw [hwl, List.countP_append, h0]
  have hprim : (newConnectionRow s now tid uid ca cid wt lab).is_primary
      = false := by
    show (s.wallets.countP
      (fun w => w.tenant_id == tid && w.user_id == uid) == 0) = false
    have : s.wallets.countP (fun w => w.tenant_id == tid && w.user_id == uid)
        ≠ 0 := hne
    simpa using this
  simp [List.countP_cons, hprim]

/-- C3 (amended): within each (tenant, user) scope a first-time connection
is created primary exactly when the user had no wallet in the scope (later
first-time connections get `is_primary=false`, and re-verification never
changes the flag); every operation preserves "at most one primary per
scope"; a successful `set_primary_wallet` leaves exactly one primary in its
scope (given the id column's uniqueness) and a failed one changes nothing;
`disconnect_wallet` never promotes — deleting the primary leaves zero
primaries, and the zero persists through later first-time connections into
the still-populated scope, because `verify_and_connect_wallet` only marks a
new connection primary when the scope count is zero. -/
theorem C3_primary_invariant (keccak : List Char → List Nat)
    (recover : String → String → Option String) (s : DBState) (now : Nat)
    (tid uid ca : String) (cid : Int) (wt : String) (lab : Option String)
    (hfw : s.wallets.find? (connKey tid uid ca cid) = none)
    (hinv0 : AtMostOnePrimary s)
    (hnodup : (s.wallets.map (fun w => w.id)).Nodup) :
    ((upsertConnection s now tid uid ca cid wt lab).1.is_primary =
      (scopeCount s tid uid == 0)) ∧
    (∀ s2 now2 t2 u2 wa sig nn cid2 wt2 lab2 conn s3,
      AtMostOnePrimary s2 →
      verify_and_connect_wallet keccak recover s2 now2 t2 u2 wa sig nn cid2
        wt2 lab2 = Except.ok (conn, s3) →
      AtMostOnePrimary s3) ∧
    AtMostOnePrimary (upsertConnection s now tid uid ca cid wt lab).2 ∧
    (∀ wid,
      (AtMostOnePrimary s →
        AtMostOnePrimary (set_primary_wallet s tid uid wid).2) ∧
      ((set_primary_wallet s tid uid wid).1 = true →
        primaryCount (set_primary_wallet s tid uid wid).2 tid uid = 1) ∧
      ((set_primary_wallet s tid uid wid).1 = false →
        (set_primary_wallet s tid uid wid).2 = s)) ∧
    (∀ wid,
      AtMostOnePrimary (disconnect_wallet s tid uid wid).2 ∧
      ∀ t u2, primaryCount s t u2 = 0 →
        primaryCount (disconnect_wallet s tid uid wid).2 t u2 = 0) ∧
    (scopeCount s tid uid ≠ 0 → primaryCount s tid uid = 0 →
      primaryCount (upsertConnection s now tid uid ca cid wt lab).2 tid uid
        = 0) := by
  refine ⟨?_, ?_, atMostOne_upsert now tid uid ca cid wt lab hinv0,
    fun wid => set_primary_spec s tid uid wid hnodup,
    fun wid => ⟨(disconnect_primary_spec s tid uid wid).1 hinv0,
      (disconnect_primary_spec s tid uid wid).2⟩,
    primaryZero_upsert_new s now tid uid ca cid wt lab hfw⟩
  · have : (upsertConnection s now tid uid ca cid wt lab).1 =
        newConnectionRow s now tid uid ca cid wt lab := by
      simp [upsertConnection, hfw]
    rw [this]
    rfl
  · intro s2 now2 t2 u2 wa sig nn cid2 wt2 lab2 conn s3 hinv2 h2
    exact atMostOne_connect hinv2 h2

/-- C3 (counterexample to the claim as stated): connect A (primary), connect
B, disconnect A — the primary — then connect C.  The final operation is a
successful connect, not a deletion, yet the user ends with two connections
and zero primaries: the carve-out "except immediately after deleting the
primary" does not cover this reachable state, so "exactly one primary" fails. -/
theorem C3_counterexample :
    exceptOk (runVerifyAndConnect keccak0 recover0 state0 1 "t1" "u1" addrA
      "sigA" "nA" 1 "metamask" none).1 = true ∧
    exceptOk (runVerifyAndConnect keccak0 recover0 stateAfterA 2 "t1" "u1"
      addrB "sigB" "nB" 1 "metamask" none).1 = true ∧
    primaryCount stateAfterB "t1" "u1" = 1 ∧
    (disconnect_wallet stateAfterB "t1" "u1" "wallet_1000").1 = true ∧
    exceptOk (runVerifyAndConnect keccak0 recover0 stateAfterDel 4 "t1" "u1"
      addrC "sigC" "nC" 1 "metamask" none).1 = true ∧
    scopeCount stateAfterC "t1" "u1" = 2 ∧
    primaryCount stateAfterC "t1" "u1" = 0 := by
  refine ⟨?_, ?_, ?_, ?_, ?_, ?_, ?_⟩ <;> decide

theorem C3_witness :
    ((upsertConnection state0 1 "t1" "u1" addrA 1 "metamask" none).1.is_primary
      = (scopeCount state0 "t1" "u1" == 0)) ∧
    (∀ s2 now2 t2 u2 wa sig nn cid2 wt2 lab2 conn s3,
      AtMostOnePrimary s2 →
      verify_and_connect_wallet keccak0 recover0 s2 now2 t2 u2 wa sig nn cid2
        wt2 lab2 = Except.ok (conn, s3) →
      AtMostOnePrimary s3) ∧
    AtMostOnePrimary (upsertConnection state0 1 "t1" "u1" addrA 1 "metamask"
      none).2 ∧
    (∀ wid,
      (AtMostOnePrimary state0 →
        AtMostOnePrimary (set_primary_wallet state0 "t1" "u1" wid).2) ∧
      ((set_primary_wallet state0 "t1" "u1" wid).1 = true →
        primaryCount (set_primary_wallet state0 "t1" "u1" wid).2 "t1" "u1"
          = 1) ∧
      ((set_primary_wallet state0 "t1" "u1" wid).1 = false →
        (set_primary_wallet state0 "t1" "u1" wid).2 = state0)) ∧
    (∀ wid,
      AtMostOnePrimary (disconnect_wallet state0 "t1" "u1" wid).2 ∧
      ∀ t u2, primaryCount state0 t u2 = 0 →
        primaryCount (disconnect_wallet state0 "t1" "u1" wid).2 t u2 = 0) ∧
    (scopeCount state0 "t1" "u1" ≠ 0 → primaryCount state0 "t1" "u1" = 0 →
      primaryCount (upsertConnection state0 1 "t1" "u1" addrA 1 "metamask"
        none).2 "t1" "u1" = 0) :=
  C3_primary_invariant keccak0 recover0 state0 1 "t1" "u1" addrA 1 "metamask"
    none (by decide)
    (fun t u2 => Nat.zero_le 1)
    (by decide)

end Fintech
